import Mathlib

/-! RGB to HSV conversion of a coloured point cloud (`src/hsv.cpp`)

A shallow embedding of `RGB_to_HSV_conversion::Run`: the neighbourhood average,
the RGB to HSV formulas, the range tracking of the first loop, the three
segmentation loops and the six layer writes.

Arithmetic model.  The source computes in `Real` (IEEE double precision).  Here a
`Real` is an exact rational, or `nan`, the non-finite outcome of a division by
zero; the rounding of double precision arithmetic is not modelled.  A division by
zero in the first loop is always `0 / 0`, a NaN: every comparison with it is false,
and that is how `nan` compares here.  In the segmentation loops a division by zero
may also be an infinity; its result is only multiplied by a cluster count, floored
and stored, never compared, so one non-finite value stands for both.

Single precision.  The buffers and the layers hold `StoredReal`, a `float`, and the
segmentation loops convert with `float(...)`.  These conversions are modelled: a
value is rounded to the nearest number with a 24 bit significand, ties to even.
The exponent range of the format is not modelled (no overflow, no subnormal
numbers); the values of the program are far inside it.  The fraction handed to the
progress channel, `float(progress) / points_all.size()` of line 153, is kept as the
exact quotient.
-/

namespace RGB_to_HSV_conversion

/-! ## Real numbers of the source -/

/-- A value of the source type `Real`: a finite number, or a non-finite value. -/
inductive Real where
  | fin (q : ℚ)
  | nan
deriving DecidableEq

/-- Addition `a + b`. -/
def Real.add : Real → Real → Real
  | .fin a, .fin b => .fin (a + b)
  | _, _ => .nan

/-- Subtraction `a - b`. -/
def Real.sub : Real → Real → Real
  | .fin a, .fin b => .fin (a - b)
  | _, _ => .nan

/-- Multiplication `a * b`. -/
def Real.mul : Real → Real → Real
  | .fin a, .fin b => .fin (a * b)
  | _, _ => .nan

/-- Division `a / b`; a zero divisor gives a non-finite value. -/
def Real.div : Real → Real → Real
  | .fin a, .fin b => if b = 0 then .nan else .fin (a / b)
  | _, _ => .nan

/-- Comparison `a < b`; false when an operand is not finite. -/
def Real.lt : Real → Real → Bool
  | .fin a, .fin b => decide (a < b)
  | _, _ => false

/-- Comparison `a > b`; false when an operand is not finite. -/
def Real.gt : Real → Real → Bool
  | .fin a, .fin b => decide (a > b)
  | _, _ => false

/-- Comparison `a == b`; false when an operand is not finite. -/
def Real.eq : Real → Real → Bool
  | .fin a, .fin b => decide (a = b)
  | _, _ => false

/-- The function `std::floor`. -/
def Real.floor : Real → Real
  | .fin a => .fin (⌊a⌋ : ℤ)
  | .nan => .nan

instance : Add Real := ⟨Real.add⟩
instance : Sub Real := ⟨Real.sub⟩
instance : Mul Real := ⟨Real.mul⟩
instance : Div Real := ⟨Real.div⟩

/-- Conversion of an `Integer` parameter or counter to `Real`. -/
def Real.ofInt (i : Int) : Real := .fin i

/-! ## Single precision -/

/-- Rounding to the nearest integer, ties to the even one. -/
def roundEven (x : ℚ) : ℤ :=
  if x - ⌊x⌋ < 1 / 2 then ⌊x⌋
  else if 1 / 2 < x - ⌊x⌋ then ⌊x⌋ + 1
  else if ⌊x⌋ % 2 = 0 then ⌊x⌋ else ⌊x⌋ + 1

/-- The unit in the last place of a positive number in single precision: with
`2 ^ e ≤ q < 2 ^ (e + 1)` it is `2 ^ (e - 23)`. -/
def ulp (q : ℚ) : ℚ := 2 ^ (Int.log 2 q - 23)

/-- The single precision number nearest to a positive number. -/
def toFloatPos (q : ℚ) : ℚ := roundEven (q / ulp q) * ulp q

/-- The single precision number nearest to a number, ties to even. -/
def toFloat32 (q : ℚ) : ℚ :=
  if q = 0 then 0 else if 0 < q then toFloatPos q else - toFloatPos (-q)

/-- The conversion `float(x)` of a `Real`, with the value again read as a `Real`. -/
def Real.toFloat : Real → Real
  | .fin q => .fin (toFloat32 q)
  | .nan => .nan

/-- A value of the host type `StoredReal`, which is not in the source and is taken to
be `float`, as the conversions `float(iterator)` and `StoredReal(...)` of lines 165 and
166 have it.  The field is the value read as a `Real`. -/
structure StoredReal where
  val : Real
deriving DecidableEq

/-- The conversion `StoredReal(x)` of a `Real`, also the implicit one when a `Real`
is pushed into a `std::vector<StoredReal>`. -/
def StoredReal.ofReal (x : Real) : StoredReal := ⟨Real.toFloat x⟩

/-! ## Data model -/

/-- Colour of a point, as read through `RangeColor`: channels `x()`, `y()`, `z()`. -/
structure Color where
  x : ℚ
  y : ℚ
  z : ℚ
deriving DecidableEq

/-- Local coordinates of a point, as read through `RangeLocalXYZ`. -/
structure XYZ where
  x : ℚ
  y : ℚ
  z : ℚ
deriving DecidableEq

/-- A point of a cloud: position and colour. -/
structure Point where
  xyz : XYZ
  color : Color
deriving DecidableEq

/-- A `Clouds::PointsRange`: points in the order of the range. -/
abbrev PointsRange := List Point

/-- The sphere `Math::Sphere3D(radius, center)` given to the search kernel. -/
structure Sphere3D where
  radius : ℚ
  center : XYZ
deriving DecidableEq

/-- A named layer of per-point values. -/
structure Layer where
  name : String
  vals : List StoredReal
deriving DecidableEq

/-- A cloud: its points (`GetAllPoints`), the answer of its spatial search
(`FindPoints` with a `SphericalSearchKernel`), and its layers. -/
structure Cloud where
  points : PointsRange
  FindPoints : Sphere3D → PointsRange
  layers : List Layer

/-- The parameters of the method, as declared in `DefineParameters`. -/
structure Params where
  sphere_radius : ℚ
  clusters_H : Int
  clusters_S : Int
  clusters_V : Int

/-- The bounds that `DefineParameters` puts on the parameters. -/
def Params.valid (p : Params) : Prop :=
  1 / 10 ≤ p.sphere_radius ∧ p.sphere_radius ≤ 3 ∧
  1 ≤ p.clusters_H ∧ p.clusters_H ≤ 20 ∧
  1 ≤ p.clusters_S ∧ p.clusters_S ≤ 20 ∧
  1 ≤ p.clusters_V ∧ p.clusters_V ≤ 20

/-- A colour whose three channels are in the byte range `[0, 255]`. -/
def Color.valid (c : Color) : Prop :=
  (0 ≤ c.x ∧ c.x ≤ 255) ∧ (0 ≤ c.y ∧ c.y ≤ 255) ∧ (0 ≤ c.z ∧ c.z ≤ 255)

/-! ## Neighbourhood average (lines 89-105) -/

/-- The three channel sums `R_sum`, `G_sum`, `B_sum` while the loop of lines 96-101 runs. -/
structure Sums where
  R_sum : Real
  G_sum : Real
  B_sum : Real
deriving DecidableEq

/-- One iteration of the loop of lines 96-101. -/
def sumStep (s : Sums) (tested_point : Point) : Sums :=
  ⟨s.R_sum + .fin tested_point.color.x,
   s.G_sum + .fin tested_point.color.y,
   s.B_sum + .fin tested_point.color.z⟩

/-- The loop of lines 93-101 over the colours of the neighbours. -/
def sumColors (neighbors : PointsRange) : Sums :=
  neighbors.foldl sumStep ⟨.fin 0, .fin 0, .fin 0⟩

/-- An averaged colour `R_avg`, `G_avg`, `B_avg`. -/
structure Avg where
  R_avg : Real
  G_avg : Real
  B_avg : Real
deriving DecidableEq

/-- Lines 89-105: the average colour of the neighbours, normalised by 255. -/
def averageColor (neighbors : PointsRange) : Avg :=
  let neighbors_sum : Real := .fin neighbors.length
  let s := sumColors neighbors
  ⟨s.R_sum / neighbors_sum / .fin 255,
   s.G_sum / neighbors_sum / .fin 255,
   s.B_sum / neighbors_sum / .fin 255⟩

/-! ## RGB to HSV (lines 107-138) -/

/-- The call `std::max({a, b, c})`: the first element, replaced by a later one when
the kept one compares less than it. -/
def max3 (a b c : Real) : Real :=
  let largest := if Real.lt a b then b else a
  if Real.lt largest c then c else largest

/-- The call `std::min({a, b, c})`: the first element, replaced by a later one when
that one compares less than the kept one. -/
def min3 (a b c : Real) : Real :=
  let smallest := if Real.lt b a then b else a
  if Real.lt c smallest then c else smallest

/-- Lines 112-122: the hue, a sequence of independent `if` statements. -/
def hueOf (R_avg G_avg B_avg : Real) : Real :=
  let max_RGB_value := max3 R_avg G_avg B_avg
  let min_RGB_value := min3 R_avg G_avg B_avg
  let diff_max_min := max_RGB_value - min_RGB_value
  let hue : Real := .fin (-1)
  let hue :=
    if Real.eq max_RGB_value (.fin 0) && Real.eq min_RGB_value (.fin 0) then .fin 0 else hue
  let hue :=
    if Real.eq max_RGB_value R_avg then .fin 60 * ((G_avg - B_avg) / diff_max_min) else hue
  let hue :=
    if Real.eq max_RGB_value G_avg then
      .fin 60 * (((B_avg - R_avg) / diff_max_min) + .fin 2)
    else hue
  let hue :=
    if Real.eq max_RGB_value B_avg then
      .fin 60 * (((R_avg - G_avg) / diff_max_min) + .fin 4)
    else hue
  let hue := if Real.lt hue (.fin 0) then hue + .fin 360 else hue
  hue

/-- The hue before the wrap of line 121, for a colour that is not grey: the branch of
the last channel that attains the maximum. -/
def rawHue (a b c : ℚ) : ℚ :=
  let M := max (max a b) c
  let m := min (min a b) c
  if M = c then 60 * ((a - b) / (M - m) + 4)
  else if M = b then 60 * ((c - a) / (M - m) + 2)
  else 60 * ((b - c) / (M - m))

/-- Lines 128-132: the saturation. -/
def saturationOf (R_avg G_avg B_avg : Real) : Real :=
  let max_RGB_value := max3 R_avg G_avg B_avg
  let min_RGB_value := min3 R_avg G_avg B_avg
  let diff_max_min := max_RGB_value - min_RGB_value
  if Real.eq max_RGB_value (.fin 0) then .fin 0 else (diff_max_min / max_RGB_value) * .fin 100

/-- Line 138: the value. -/
def valueOf (R_avg G_avg B_avg : Real) : Real :=
  max3 R_avg G_avg B_avg * .fin 100

/-- The HSV sample of one point. -/
structure HSV where
  hue : Real
  saturation : Real
  value : Real
deriving DecidableEq

/-- Lines 107-138 without the range updates: the HSV sample of an averaged colour. -/
def toHSV (a : Avg) : HSV :=
  ⟨hueOf a.R_avg a.G_avg a.B_avg, saturationOf a.R_avg a.G_avg a.B_avg,
   valueOf a.R_avg a.G_avg a.B_avg⟩

/-! ## The first loop (lines 73-158) -/

/-- The variables of `Run` that the first loop changes: the three buffers, the six
range variables, the counter `progress`, and the fractions handed so far to
`context.Feedback().Update`. -/
structure State where
  hue_values : List StoredReal
  saturation_values : List StoredReal
  value_values : List StoredReal
  max_H : Real
  max_S : Real
  max_V : Real
  min_H : Real
  min_S : Real
  min_V : Real
  progress : Nat
  reports : List Real

/-- Lines 66-82: empty buffers, the sentinels `-1` and `500`, `progress = 0`. -/
def State.init : State :=
  { hue_values := [], saturation_values := [], value_values := [],
    max_H := .fin (-1), max_S := .fin (-1), max_V := .fin (-1),
    min_H := .fin 500, min_S := .fin 500, min_V := .fin 500,
    progress := 0, reports := [] }

/-- The statement `if (v > max) max = v;`. -/
def updMax (v max : Real) : Real := if Real.gt v max then v else max

/-- The statement `if (v < min) min = v;`. -/
def updMin (v min : Real) : Real := if Real.lt v min then v else min

/-- The HSV sample of the point at `xyz`: lines 86-138 without the range updates. -/
def sampleAt (p : Params) (cloud : Cloud) (xyz : XYZ) : HSV :=
  let neighbors := cloud.FindPoints ⟨p.sphere_radius, xyz⟩
  toHSV (averageColor neighbors)

/-- Lines 86-149: the body of the first loop for the point at `xyz`, up to `++progress`.
The range variables take the `Real` sample; the buffers, which are vectors of
`StoredReal`, take its conversion. -/
def pointStep (p : Params) (cloud : Cloud) (s : State) (xyz : XYZ) : State :=
  let c := sampleAt p cloud xyz
  { hue_values := s.hue_values ++ [StoredReal.ofReal c.hue],
    saturation_values := s.saturation_values ++ [StoredReal.ofReal c.saturation],
    value_values := s.value_values ++ [StoredReal.ofReal c.value],
    max_H := updMax c.hue s.max_H,
    max_S := updMax c.saturation s.max_S,
    max_V := updMax c.value s.max_V,
    min_H := updMin c.hue s.min_H,
    min_S := updMin c.saturation s.min_S,
    min_V := updMin c.value s.min_V,
    progress := s.progress + 1,
    reports := s.reports }

/-- The constant `progress_step` of line 53. -/
def progress_step : Nat := 10000

/-- Lines 84-158: the first loop over the points still to visit.  The result is the
state reached and whether `EasyException` was thrown.  `Update` is the answer of the
progress channel; the counter `progress` is taken without overflow. -/
def pass1 (p : Params) (Update : Real → Bool) (cloud : Cloud) :
    List Point → State → State × Bool
  | [], s => (s, false)
  | pt :: rest, s =>
    let s1 := pointStep p cloud s pt.xyz
    if s1.progress % progress_step = 0 then
      let fraction : Real := Real.fin s1.progress / Real.fin cloud.points.length
      let s2 := { s1 with reports := s1.reports ++ [fraction] }
      if Update fraction then pass1 p Update cloud rest s2 else (s2, true)
    else pass1 p Update cloud rest s1

/-! ## Segmentation (lines 162-201) -/

/-- Lines 165, 182, 199: the value of `cluster_H_val` for one buffered value,
`std::floor(float(iterator) / (max - min) * clusters)`. -/
def cluster_val (value : StoredReal) (max min : Real) (clusters : Int) : Real :=
  Real.floor (Real.toFloat value.val / (max - min) * Real.ofInt clusters)

/-- Lines 163-167, 180-184, 197-201: one segmentation loop over a buffer, which
pushes `StoredReal(cluster_H_val)`. -/
def segmentation (values : List StoredReal) (max min : Real) (clusters : Int) :
    List StoredReal :=
  values.foldl (fun seg it => seg ++ [StoredReal.ofReal (cluster_val it max min clusters)]) []

/-! ## Layers -/

/-- Modelled from the spec: `cloud.FindLayers(name)` of the host library, the handles
(here positions) of the layers of that name, in order. -/
def findLayers (name : String) : List Layer → List Nat
  | [] => []
  | l :: ls =>
    let later := (findLayers name ls).map (· + 1)
    if l.name = name then 0 :: later else later

/-- Modelled from the spec: `cloud.CreateLayer(name, 0)` of the host library, a new
layer of that name with value `0` at every point; its handle is its position. -/
def createLayer (cloud : Cloud) (name : String) : Cloud × Nat :=
  ({ cloud with
      layers := cloud.layers ++ [⟨name, List.replicate cloud.points.length ⟨.fin 0⟩⟩] },
   cloud.layers.length)

/-- The values of the layer at a position replaced by `vals`. -/
def setVals (vals : List StoredReal) : Nat → List Layer → List Layer
  | _, [] => []
  | 0, l :: ls => ⟨l.name, vals⟩ :: ls
  | i + 1, l :: ls => l :: setVals vals i ls

/-- Modelled from the spec: `points_all.SetLayerVals(vals, layer)` of the host
library, which stores one value for every point of the cloud in the layer. -/
def setLayerVals (cloud : Cloud) (vals : List StoredReal) (layer : Nat) : Cloud :=
  { cloud with layers := setVals vals layer cloud.layers }

/-- Lines 169-177 (and 186-194, 203-211, 216-224, 226-234, 236-244): take the first
layer of that name, or create one, and save the values in it. -/
def saveLayer (cloud : Cloud) (name : String) (vals : List StoredReal) : Cloud :=
  match findLayers name cloud.layers with
  | layer :: _ => setLayerVals cloud vals layer
  | [] =>
    let created := createLayer cloud name
    setLayerVals created.1 vals created.2

/-- The layers that `saveLayer` leaves, as a function of the layers before;
`zeros` are the values of a newly created layer. -/
def savedLayers (name : String) (vals zeros : List StoredReal) (ls : List Layer) :
    List Layer :=
  match findLayers name ls with
  | layer :: _ => setVals vals layer ls
  | [] => setVals vals ls.length (ls ++ [⟨name, zeros⟩])

/-- The values of the first layer of a name, the layer that `Run` writes. -/
def layerVals (cloud : Cloud) (name : String) : Option (List StoredReal) :=
  (cloud.layers.find? (fun l => l.name = name)).map (·.vals)

/-! ## Run -/

/-- What a run on one cloud leaves: the cloud with its layers, the fractions handed
to the progress channel, and whether `EasyException` was thrown. -/
structure Result where
  cloud : Cloud
  reports : List Real
  thrown : Bool

/-- Lines 60-246: the body that `Run` applies to each cloud of the subtree. -/
def Run (p : Params) (Update : Real → Bool) (cloud : Cloud) : Result :=
  let r := pass1 p Update cloud cloud.points State.init
  let s := r.1
  if r.2 then ⟨cloud, s.reports, true⟩
  else
    let segmentation_H := segmentation s.hue_values s.max_H s.min_H p.clusters_H
    let cloud := saveLayer cloud "segmentation_H" segmentation_H
    let segmentation_S := segmentation s.saturation_values s.max_S s.min_S p.clusters_S
    let cloud := saveLayer cloud "segmentation_S" segmentation_S
    let segmentation_V := segmentation s.value_values s.max_V s.min_V p.clusters_V
    let cloud := saveLayer cloud "segmentation_V" segmentation_V
    let cloud := saveLayer cloud "HUE" s.hue_values
    let cloud := saveLayer cloud "SATURATION" s.saturation_values
    let cloud := saveLayer cloud "VALUE" s.value_values
    ⟨cloud, s.reports, false⟩

/-! ## Channels

The source repeats the same statements for hue, saturation and value.  The
projections below name the three copies, so that a property can be stated once for
every channel. -/

/-- The three channels. -/
inductive Channel where
  | H
  | S
  | V
deriving DecidableEq

/-- The component of a sample on a channel. -/
def HSV.get (x : HSV) : Channel → Real
  | .H => x.hue
  | .S => x.saturation
  | .V => x.value

/-- The buffer of a channel: `hue_values`, `saturation_values`, `value_values`. -/
def State.values (s : State) : Channel → List StoredReal
  | .H => s.hue_values
  | .S => s.saturation_values
  | .V => s.value_values

/-- The tracked maximum of a channel: `max_H`, `max_S`, `max_V`. -/
def State.max (s : State) : Channel → Real
  | .H => s.max_H
  | .S => s.max_S
  | .V => s.max_V

/-- The tracked minimum of a channel: `min_H`, `min_S`, `min_V`. -/
def State.min (s : State) : Channel → Real
  | .H => s.min_H
  | .S => s.min_S
  | .V => s.min_V

/-- The cluster count of a channel: `clusters_H`, `clusters_S`, `clusters_V`. -/
def Params.clusters (p : Params) : Channel → Int
  | .H => p.clusters_H
  | .S => p.clusters_S
  | .V => p.clusters_V

/-- The name of the segmentation layer of a channel. -/
def segName : Channel → String
  | .H => "segmentation_H"
  | .S => "segmentation_S"
  | .V => "segmentation_V"

/-- The name of the feature layer of a channel. -/
def featName : Channel → String
  | .H => "HUE"
  | .S => "SATURATION"
  | .V => "VALUE"

/-- The samples of a channel for all points of the cloud, in the order of the cloud,
as the first loop computes them in `Real`. -/
def samples (p : Params) (cloud : Cloud) (c : Channel) : List Real :=
  cloud.points.map (fun pt => (sampleAt p cloud pt.xyz).get c)

/-- The samples of a channel as the buffer holds them: converted to `StoredReal`. -/
def buffered (p : Params) (cloud : Cloud) (c : Channel) : List StoredReal :=
  (samples p cloud c).map StoredReal.ofReal

/-- The statement `if (v > max) max = v;` repeated over a list of values. -/
def trackMax (vals : List Real) (max : Real) : Real :=
  vals.foldl (fun m v => updMax v m) max

/-- The statement `if (v < min) min = v;` repeated over a list of values. -/
def trackMin (vals : List Real) (min : Real) : Real :=
  vals.foldl (fun m v => updMin v m) min

/-- The state after the first loop over the whole cloud. -/
def finalState (p : Params) (Update : Real → Bool) (cloud : Cloud) : State :=
  (pass1 p Update cloud cloud.points State.init).1

/-- The colours that the search returns around every point of the cloud are in
the byte range. -/
def Cloud.validColors (p : Params) (cloud : Cloud) : Prop :=
  ∀ pt ∈ cloud.points, ∀ q ∈ cloud.FindPoints ⟨p.sphere_radius, pt.xyz⟩, q.color.valid

/-! ## Concrete inputs -/

/-- The default parameters: radius 0.6 and four clusters per channel. -/
def defaultParams : Params := ⟨6 / 10, 4, 4, 4⟩

/-- A progress channel that never cancels. -/
def alwaysContinue : Real → Bool := fun _ => true

/-- A red point at the origin. -/
def redPoint : Point := ⟨⟨0, 0, 0⟩, ⟨255, 0, 0⟩⟩

/-- A green point far from the origin. -/
def greenPoint : Point := ⟨⟨10, 0, 0⟩, ⟨0, 255, 0⟩⟩

/-- A cloud of one red point, its own only neighbour. -/
def redCloud : Cloud := ⟨[redPoint], fun _ => [redPoint], []⟩

/-- A cloud of a red and a green point, each its own only neighbour. -/
def redGreenCloud : Cloud :=
  ⟨[redPoint, greenPoint],
   fun s => if s.center = redPoint.xyz then [redPoint] else [greenPoint], []⟩

/-- A cloud of one point whose search returns no neighbour at all. -/
def lonelyCloud : Cloud := ⟨[redPoint], fun _ => [], []⟩

/-- A blue point far from the red and the green one. -/
def bluePoint : Point := ⟨⟨0, 10, 0⟩, ⟨0, 0, 255⟩⟩

/-- A cloud of a red, a green and a blue point, each its own only neighbour. -/
def rgbCloud : Cloud :=
  ⟨[redPoint, greenPoint, bluePoint],
   fun s =>
     if s.center = redPoint.xyz then [redPoint]
     else if s.center = greenPoint.xyz then [greenPoint]
     else [bluePoint],
   []⟩

/-- Every sample of the cloud is finite and in the ranges of an HSV sample:
hue in `[0, 360)`, saturation and value in `[0, 100]`. -/
def Cloud.samplesInRange (p : Params) (cloud : Cloud) : Prop :=
  ∀ pt ∈ cloud.points, ∃ h s v : ℚ,
    sampleAt p cloud pt.xyz = ⟨.fin h, .fin s, .fin v⟩ ∧
    (0 ≤ h ∧ h < 360) ∧ (0 ≤ s ∧ s ≤ 100) ∧ (0 ≤ v ∧ v ≤ 100)

/-! ## The progress channel as the spec words it -/

/-- The state after one more fraction was handed to the progress channel. -/
def State.report (s : State) (fraction : Real) : State :=
  { s with reports := s.reports ++ [fraction] }

/-- The fraction handed to the progress channel after `progress` of `n` points:
`float(progress) / points_all.size()` of line 153, as an exact quotient. -/
def fractionAt (n progress : Nat) : Real := Real.fin progress / Real.fin n

/-- The counts of processed points that are positive multiples of `progress_step`,
up to `n`, in increasing order. -/
def consulted (n : Nat) : List Nat :=
  (List.range' 1 n).filter (fun g => g % progress_step = 0)

/-- The progress channel asked at the given counts in order, until it first answers
`false`: the fractions handed to it, and whether it answered `false`. -/
def askInOrder (Update : Real → Bool) (n : Nat) : List Nat → List Real × Bool
  | [] => ([], false)
  | g :: gs =>
    if Update (fractionAt n g) then
      (fractionAt n g :: (askInOrder Update n gs).1, (askInOrder Update n gs).2)
    else ([fractionAt n g], true)

/-- A progress channel that cancels at the first report. -/
def alwaysCancel : Real → Bool := fun _ => false

/-- A cloud of 10000 red points, each with one red neighbour. -/
def bigRedCloud : Cloud := ⟨List.replicate 10000 redPoint, fun _ => [redPoint], []⟩

/-- A point of colour `(1, 0, 0)` at the origin. -/
def dimPoint : Point := ⟨⟨0, 0, 0⟩, ⟨1, 0, 0⟩⟩

/-- A point of colour `(2, 0, 0)` far from the origin. -/
def dimmerPoint : Point := ⟨⟨10, 0, 0⟩, ⟨2, 0, 0⟩⟩

/-- A cloud of the points of colours `(1, 0, 0)` and `(2, 0, 0)`, each its own only
neighbour. -/
def dimCloud : Cloud :=
  ⟨[dimPoint, dimmerPoint],
   fun s => if s.center = dimPoint.xyz then [dimPoint] else [dimmerPoint], []⟩

/-- The six layer names that `Run` writes, in the order of the writes. -/
def layerNames : List String :=
  ["segmentation_H", "segmentation_S", "segmentation_V", "HUE", "SATURATION", "VALUE"]

/-- The number of layers of a name. -/
def countName (ls : List Layer) (name : String) : Nat :=
  ls.countP (fun l => l.name = name)

/-- Lines 162-244: the three segmentation loops and the six layer writes, from the
state that the first loop left. -/
def writeLayers (p : Params) (s : State) (cloud : Cloud) : Cloud :=
  let cloud := saveLayer cloud "segmentation_H"
    (segmentation s.hue_values s.max_H s.min_H p.clusters_H)
  let cloud := saveLayer cloud "segmentation_S"
    (segmentation s.saturation_values s.max_S s.min_S p.clusters_S)
  let cloud := saveLayer cloud "segmentation_V"
    (segmentation s.value_values s.max_V s.min_V p.clusters_V)
  let cloud := saveLayer cloud "HUE" s.hue_values
  let cloud := saveLayer cloud "SATURATION" s.saturation_values
  saveLayer cloud "VALUE" s.value_values

/-! ## The hue of the spec -/

/-- The hue as the spec words it (section 4.2): one chain in which the first matching
branch wins, red before green before blue, followed by the wrap of a negative hue. -/
def specHue (R G B : Real) : Real :=
  let maxC := max3 R G B
  let minC := min3 R G B
  let delta := maxC - minC
  let H :=
    if Real.eq maxC (.fin 0) && Real.eq minC (.fin 0) then .fin 0
    else if Real.eq maxC R then .fin 60 * ((G - B) / delta)
    else if Real.eq maxC G then .fin 60 * (((B - R) / delta) + .fin 2)
    else .fin 60 * (((R - G) / delta) + .fin 4)
  if Real.lt H (.fin 0) then H + .fin 360 else H

/-- The hue of the spec before the wrap, for a colour that is not grey: the branch of
the first channel that attains the maximum. -/
def firstHue (a b c : ℚ) : ℚ :=
  let M := max (max a b) c
  let m := min (min a b) c
  if M = a then 60 * ((b - c) / (M - m))
  else if M = b then 60 * ((c - a) / (M - m) + 2)
  else 60 * ((a - b) / (M - m) + 4)

/-- The wrap of line 121: a negative hue is raised by 360. -/
def wrapHue (h : ℚ) : ℚ := if h < 0 then h + 360 else h

/-! ## Evaluation rules of the arithmetic -/

@[simp] theorem fin_add (a b : ℚ) : Real.fin a + Real.fin b = Real.fin (a + b) := rfl
@[simp] theorem fin_sub (a b : ℚ) : Real.fin a - Real.fin b = Real.fin (a - b) := rfl
@[simp] theorem fin_mul (a b : ℚ) : Real.fin a * Real.fin b = Real.fin (a * b) := rfl
@[simp] theorem fin_div (a b : ℚ) :
    Real.fin a / Real.fin b = if b = 0 then Real.nan else Real.fin (a / b) := rfl
@[simp] theorem nan_add (a : Real) : Real.nan + a = Real.nan := rfl
@[simp] theorem add_nan (a : Real) : a + Real.nan = Real.nan := by cases a <;> rfl
@[simp] theorem nan_sub (a : Real) : Real.nan - a = Real.nan := rfl
@[simp] theorem sub_nan (a : Real) : a - Real.nan = Real.nan := by cases a <;> rfl
@[simp] theorem nan_mul (a : Real) : Real.nan * a = Real.nan := rfl
@[simp] theorem mul_nan (a : Real) : a * Real.nan = Real.nan := by cases a <;> rfl
@[simp] theorem nan_div (a : Real) : Real.nan / a = Real.nan := rfl
@[simp] theorem div_nan (a : Real) : a / Real.nan = Real.nan := by cases a <;> rfl
@[simp] theorem lt_fin (a b : ℚ) : Real.lt (.fin a) (.fin b) = decide (a < b) := rfl
@[simp] theorem gt_fin (a b : ℚ) : Real.gt (.fin a) (.fin b) = decide (b < a) := rfl
@[simp] theorem eq_fin (a b : ℚ) : Real.eq (.fin a) (.fin b) = decide (a = b) := rfl
@[simp] theorem lt_nan (a : Real) : Real.lt a .nan = false := by cases a <;> rfl
@[simp] theorem nan_lt (a : Real) : Real.lt .nan a = false := rfl
@[simp] theorem gt_nan (a : Real) : Real.gt a .nan = false := by cases a <;> rfl
@[simp] theorem nan_gt (a : Real) : Real.gt .nan a = false := rfl
@[simp] theorem eq_nan (a : Real) : Real.eq a .nan = false := by cases a <;> rfl
@[simp] theorem nan_eq (a : Real) : Real.eq .nan a = false := rfl
@[simp] theorem floor_fin (a : ℚ) : Real.floor (.fin a) = .fin (⌊a⌋ : ℤ) := rfl
@[simp] theorem floor_nan : Real.floor .nan = .nan := rfl

/-! ## Single precision rounding -/

theorem roundEven_bounds (x : ℚ) : ⌊x⌋ ≤ roundEven x ∧ roundEven x ≤ ⌊x⌋ + 1 := by
  unfold roundEven
  split_ifs <;> constructor <;> omega

theorem roundEven_intCast (n : ℤ) : roundEven (n : ℚ) = n := by
  unfold roundEven
  simp

theorem roundEven_mono (x y : ℚ) (h : x ≤ y) : roundEven x ≤ roundEven y := by
  have hf : ⌊x⌋ ≤ ⌊y⌋ := Int.floor_mono h
  rcases lt_or_eq_of_le hf with hlt | heq
  · have h1 := (roundEven_bounds x).2
    have h2 := (roundEven_bounds y).1
    omega
  · unfold roundEven
    rw [← heq]
    have hxy : x - ⌊x⌋ ≤ y - ⌊x⌋ := by linarith
    split_ifs <;> first | omega | (exfalso; linarith)

theorem roundEven_near (x : ℚ) (r : ℤ) (h1 : (r : ℚ) - 1 / 2 < x) (h2 : x < r + 1 / 2) :
    roundEven x = r := by
  unfold roundEven
  by_cases hx : (r : ℚ) ≤ x
  · have hfl : ⌊x⌋ = r := by
      rw [Int.floor_eq_iff]; constructor <;> linarith
    rw [hfl, if_pos (by linarith)]
  · have hfl : ⌊x⌋ = r - 1 := by
      rw [Int.floor_eq_iff]; push_cast; constructor <;> linarith
    rw [hfl]
    push_cast
    rw [if_neg (by linarith), if_pos (by linarith)]
    ring

theorem ulp_pos (q : ℚ) : 0 < ulp q := by
  unfold ulp
  positivity

theorem log_eq (q : ℚ) (e : ℤ) (h1 : (2 : ℚ) ^ e ≤ q) (h2 : q < (2 : ℚ) ^ (e + 1)) :
    Int.log 2 q = e := by
  have hq : 0 < q := lt_of_lt_of_le (by positivity) h1
  have a : e ≤ Int.log 2 q := (Int.zpow_le_iff_le_log (by norm_num) hq).mp (by exact_mod_cast h1)
  have b : Int.log 2 q < e + 1 := (Int.lt_zpow_iff_log_lt (by norm_num) hq).mp (by exact_mod_cast h2)
  omega

theorem log_bounds (q : ℚ) (hq : 0 < q) :
    (2 : ℚ) ^ (Int.log 2 q) ≤ q ∧ q < (2 : ℚ) ^ (Int.log 2 q + 1) := by
  constructor
  · exact_mod_cast Int.zpow_log_le_self (by norm_num : 1 < 2) hq
  · exact_mod_cast Int.lt_zpow_succ_log_self (by norm_num : 1 < 2) q

theorem two_zpow_split (e : ℤ) : (2 : ℚ) ^ (23 : ℕ) * (2 : ℚ) ^ (e - 23) = (2 : ℚ) ^ e := by
  rw [← zpow_natCast, ← zpow_add₀ (by norm_num : (2 : ℚ) ≠ 0)]
  congr 1
  push_cast
  ring

theorem two_zpow_split_succ (e : ℤ) :
    (2 : ℚ) ^ (24 : ℕ) * (2 : ℚ) ^ (e - 23) = (2 : ℚ) ^ (e + 1) := by
  rw [← zpow_natCast, ← zpow_add₀ (by norm_num : (2 : ℚ) ≠ 0)]
  congr 1
  push_cast
  ring

theorem scaled_bounds (q : ℚ) (hq : 0 < q) :
    (2 : ℚ) ^ (23 : ℕ) ≤ q / ulp q ∧ q / ulp q < (2 : ℚ) ^ (24 : ℕ) := by
  obtain ⟨h1, h2⟩ := log_bounds q hq
  constructor
  · rw [le_div_iff₀ (ulp_pos q)]
    unfold ulp
    rw [two_zpow_split]; exact h1
  · rw [div_lt_iff₀ (ulp_pos q)]
    unfold ulp
    rw [two_zpow_split_succ]; exact h2

theorem significand_bounds (q : ℚ) (hq : 0 < q) :
    (2 : ℤ) ^ (23 : ℕ) ≤ roundEven (q / ulp q) ∧ roundEven (q / ulp q) ≤ (2 : ℤ) ^ (24 : ℕ) := by
  obtain ⟨h1, h2⟩ := scaled_bounds q hq
  constructor
  · have := roundEven_mono _ _ (show (((2 : ℤ) ^ (23 : ℕ) : ℤ) : ℚ) ≤ q / ulp q by push_cast; exact h1)
    rwa [roundEven_intCast] at this
  · have := roundEven_mono _ _ (show q / ulp q ≤ (((2 : ℤ) ^ (24 : ℕ) : ℤ) : ℚ) by push_cast; exact h2.le)
    rwa [roundEven_intCast] at this

theorem toFloatPos_bounds (q : ℚ) (hq : 0 < q) :
    (2 : ℚ) ^ (Int.log 2 q) ≤ toFloatPos q ∧ toFloatPos q ≤ (2 : ℚ) ^ (Int.log 2 q + 1) := by
  obtain ⟨h1, h2⟩ := significand_bounds q hq
  have hu := ulp_pos q
  have e1 : (2 : ℚ) ^ (Int.log 2 q) = (2 : ℚ) ^ (23 : ℕ) * ulp q := (two_zpow_split _).symm
  have e2 : (2 : ℚ) ^ (Int.log 2 q + 1) = (2 : ℚ) ^ (24 : ℕ) * ulp q :=
    (two_zpow_split_succ _).symm
  have c1 : ((2 : ℚ) ^ (23 : ℕ)) ≤ (roundEven (q / ulp q) : ℚ) := by exact_mod_cast h1
  have c2 : (roundEven (q / ulp q) : ℚ) ≤ ((2 : ℚ) ^ (24 : ℕ)) := by exact_mod_cast h2
  unfold toFloatPos
  rw [e1, e2]
  constructor
  · exact mul_le_mul_of_nonneg_right c1 hu.le
  · exact mul_le_mul_of_nonneg_right c2 hu.le

theorem toFloatPos_pos (q : ℚ) (hq : 0 < q) : 0 < toFloatPos q :=
  lt_of_lt_of_le (by positivity) (toFloatPos_bounds q hq).1

theorem toFloatPos_mono (p q : ℚ) (hp : 0 < p) (h : p ≤ q) : toFloatPos p ≤ toFloatPos q := by
  have hq : 0 < q := lt_of_lt_of_le hp h
  have hl : Int.log 2 p ≤ Int.log 2 q := Int.log_mono_right hp h
  rcases lt_or_eq_of_le hl with hlt | heq
  · have a := (toFloatPos_bounds p hp).2
    have b := (toFloatPos_bounds q hq).1
    have c : (2 : ℚ) ^ (Int.log 2 p + 1) ≤ (2 : ℚ) ^ (Int.log 2 q) :=
      zpow_le_zpow_right₀ (by norm_num) (by omega)
    linarith
  · have hu : ulp p = ulp q := by unfold ulp; rw [heq]
    unfold toFloatPos
    rw [hu]
    have hpos := ulp_pos q
    apply mul_le_mul_of_nonneg_right _ hpos.le
    have : p / ulp q ≤ q / ulp q := div_le_div_of_nonneg_right h hpos.le
    exact_mod_cast roundEven_mono _ _ this

theorem toFloat32_zero : toFloat32 0 = 0 := by simp [toFloat32]

theorem toFloat32_pos (q : ℚ) (hq : 0 < q) : toFloat32 q = toFloatPos q := by
  simp [toFloat32, ne_of_gt hq, hq]

theorem toFloat32_neg (q : ℚ) (hq : q < 0) : toFloat32 q = - toFloatPos (-q) := by
  simp [toFloat32, ne_of_lt hq, not_lt.mpr hq.le]

theorem toFloat32_mono (p q : ℚ) (h : p ≤ q) : toFloat32 p ≤ toFloat32 q := by
  rcases lt_trichotomy p 0 with hp | hp | hp
  · rcases lt_trichotomy q 0 with hq | hq | hq
    · rw [toFloat32_neg p hp, toFloat32_neg q hq]
      have := toFloatPos_mono (-q) (-p) (by linarith) (by linarith)
      linarith
    · rw [hq, toFloat32_zero, toFloat32_neg p hp]
      have := toFloatPos_pos (-p) (by linarith)
      linarith
    · rw [toFloat32_neg p hp, toFloat32_pos q hq]
      have := toFloatPos_pos (-p) (by linarith)
      have := toFloatPos_pos q hq
      linarith
  · have hq : 0 ≤ q := by linarith
    rw [hp, toFloat32_zero]
    rcases lt_or_eq_of_le hq with hq | hq
    · rw [toFloat32_pos q hq]; exact (toFloatPos_pos q hq).le
    · rw [← hq, toFloat32_zero]
  · have hq : 0 < q := lt_of_lt_of_le hp h
    rw [toFloat32_pos p hp, toFloat32_pos q hq]
    exact toFloatPos_mono p q hp h

theorem toFloatPos_eval (q : ℚ) (e r : ℤ) (h1 : (2 : ℚ) ^ e ≤ q) (h2 : q < (2 : ℚ) ^ (e + 1))
    (h3 : (r : ℚ) - 1 / 2 < q / (2 : ℚ) ^ (e - 23))
    (h4 : q / (2 : ℚ) ^ (e - 23) < r + 1 / 2) :
    toFloatPos q = r * (2 : ℚ) ^ (e - 23) := by
  unfold toFloatPos ulp
  rw [log_eq q e h1 h2, roundEven_near _ r h3 h4]

theorem toFloatPos_int (n : ℤ) (h0 : 0 < n) (h1 : n < (2 : ℤ) ^ (24 : ℕ)) :
    toFloatPos (n : ℚ) = n := by
  have hq : (0 : ℚ) < (n : ℚ) := by exact_mod_cast h0
  obtain ⟨b1, b2⟩ := log_bounds (n : ℚ) hq
  have hn1 : (1 : ℚ) ≤ (n : ℚ) := by exact_mod_cast h0
  have hn2 : (n : ℚ) < (2 : ℚ) ^ ((24 : ℕ) : ℤ) := by
    rw [zpow_natCast]; exact_mod_cast h1
  have le0 : 0 ≤ Int.log 2 (n : ℚ) := by
    have : (0 : ℤ) ≤ Int.log 2 (n : ℚ) :=
      (Int.zpow_le_iff_le_log (by norm_num) hq).mp (by simpa using hn1)
    exact this
  have le23 : Int.log 2 (n : ℚ) < 24 := by
    have := (Int.lt_zpow_iff_log_lt (by norm_num : 1 < 2) hq).mp
      (show (n : ℚ) < ((2 : ℕ) : ℚ) ^ ((24 : ℕ) : ℤ) by exact_mod_cast hn2)
    exact_mod_cast this
  obtain ⟨k, hk⟩ : ∃ k : ℕ, (k : ℤ) = 23 - Int.log 2 (n : ℚ) :=
    ⟨(23 - Int.log 2 (n : ℚ)).toNat, Int.toNat_of_nonneg (by omega)⟩
  have hu : (2 : ℚ) ^ (Int.log 2 (n : ℚ) - 23) = ((2 : ℚ) ^ k)⁻¹ := by
    rw [← zpow_natCast, ← zpow_neg, hk]
    congr 1
    ring
  have hpk : (0 : ℚ) < (2 : ℚ) ^ k := by positivity
  have hscaled : (n : ℚ) / ulp (n : ℚ) = ((n * (2 : ℤ) ^ k : ℤ) : ℚ) := by
    unfold ulp
    rw [hu]
    push_cast
    field_simp
  unfold toFloatPos
  rw [hscaled, roundEven_intCast]
  unfold ulp
  rw [hu]
  push_cast
  field_simp

theorem toFloat32_int (n : ℤ) (h0 : 0 ≤ n) (h1 : n < (2 : ℤ) ^ (24 : ℕ)) :
    toFloat32 (n : ℚ) = n := by
  rcases lt_or_eq_of_le h0 with h | h
  · rw [toFloat32_pos _ (by exact_mod_cast h), toFloatPos_int n h h1]
  · rw [← h]; simp [toFloat32_zero]

@[simp] theorem toFloat_fin (q : ℚ) : Real.toFloat (.fin q) = .fin (toFloat32 q) := rfl
@[simp] theorem toFloat_nan : Real.toFloat .nan = .nan := rfl
@[simp] theorem ofReal_val (x : Real) : (StoredReal.ofReal x).val = Real.toFloat x := rfl
theorem ofReal_fin (q : ℚ) : StoredReal.ofReal (.fin q) = ⟨.fin (toFloat32 q)⟩ := rfl
theorem ofReal_nan : StoredReal.ofReal .nan = ⟨.nan⟩ := rfl

theorem toFloat32_nat (n : ℕ) (h : n < 2 ^ 24) : toFloat32 (n : ℚ) = n := by
  have := toFloat32_int (n : ℤ) (by positivity) (by exact_mod_cast h)
  simpa using this

theorem toFloat32_40_51 : toFloat32 (40 / 51) = 13158601 / 16777216 := by
  rw [toFloat32_pos _ (by norm_num), toFloatPos_eval (40 / 51) (-1) 13158601 (by norm_num)
    (by norm_num) (by norm_num) (by norm_num)]
  norm_num

theorem toFloat32_20_51 : toFloat32 (20 / 51) = 13158601 / 33554432 := by
  rw [toFloat32_pos _ (by norm_num), toFloatPos_eval (20 / 51) (-2) 13158601 (by norm_num)
    (by norm_num) (by norm_num) (by norm_num)]
  norm_num

/-! ## The neighbourhood average -/

theorem foldl_sumStep (l : PointsRange) (a b c : ℚ) :
    l.foldl sumStep ⟨.fin a, .fin b, .fin c⟩ =
      ⟨.fin (a + (l.map (fun q => q.color.x)).sum),
       .fin (b + (l.map (fun q => q.color.y)).sum),
       .fin (c + (l.map (fun q => q.color.z)).sum)⟩ := by
  induction l generalizing a b c with
  | nil => simp
  | cons q l ih =>
    simp only [List.foldl_cons, sumStep, fin_add, ih, List.map_cons, List.sum_cons, add_assoc]

theorem sumColors_eq (l : PointsRange) :
    sumColors l =
      ⟨.fin (l.map (fun q => q.color.x)).sum,
       .fin (l.map (fun q => q.color.y)).sum,
       .fin (l.map (fun q => q.color.z)).sum⟩ := by
  simp [sumColors, foldl_sumStep]

theorem averageColor_eq (l : PointsRange) (h : l ≠ []) :
    averageColor l =
      ⟨.fin ((l.map (fun q => q.color.x)).sum / l.length / 255),
       .fin ((l.map (fun q => q.color.y)).sum / l.length / 255),
       .fin ((l.map (fun q => q.color.z)).sum / l.length / 255)⟩ := by
  have hn : (l.length : ℚ) ≠ 0 := by
    have : l.length ≠ 0 := by simpa using h
    exact_mod_cast this
  simp [averageColor, sumColors_eq, hn]

theorem sum_bounds (f : Point → ℚ) (l : PointsRange)
    (h : ∀ q ∈ l, 0 ≤ f q ∧ f q ≤ 255) :
    0 ≤ (l.map f).sum ∧ (l.map f).sum ≤ 255 * l.length := by
  induction l with
  | nil => simp
  | cons q l ih =>
    have hq := h q (List.mem_cons_self q l)
    have hl := ih (fun r hr => h r (List.mem_cons_of_mem q hr))
    simp only [List.map_cons, List.sum_cons, List.length_cons, Nat.cast_add, Nat.cast_one]
    constructor <;> linarith [hq.1, hq.2, hl.1, hl.2]

theorem avg_bounds (f : Point → ℚ) (l : PointsRange) (hne : l ≠ [])
    (h : ∀ q ∈ l, 0 ≤ f q ∧ f q ≤ 255) :
    0 ≤ (l.map f).sum / l.length / 255 ∧ (l.map f).sum / l.length / 255 ≤ 1 := by
  have hn : (0 : ℚ) < l.length := by
    have : 0 < l.length := List.length_pos.mpr hne
    exact_mod_cast this
  obtain ⟨h0, h1⟩ := sum_bounds f l h
  constructor
  · positivity
  · rw [div_div, div_le_one (by positivity)]
    linarith

/-! ## The conversion on finite colours -/

theorem max3_fin (a b c : ℚ) : max3 (.fin a) (.fin b) (.fin c) = .fin (max (max a b) c) := by
  simp only [max3, lt_fin, decide_eq_true_eq]
  by_cases h1 : a < b
  · rw [if_pos h1, max_eq_right h1.le]
    by_cases h2 : b < c
    · simp [h2, max_eq_right h2.le]
    · simp [h2, max_eq_left (not_lt.mp h2)]
  · rw [if_neg h1, max_eq_left (not_lt.mp h1)]
    by_cases h2 : a < c
    · simp [h2, max_eq_right h2.le]
    · simp [h2, max_eq_left (not_lt.mp h2)]

theorem min3_fin (a b c : ℚ) : min3 (.fin a) (.fin b) (.fin c) = .fin (min (min a b) c) := by
  simp only [min3, lt_fin, decide_eq_true_eq]
  by_cases h1 : b < a
  · rw [if_pos h1, min_eq_right h1.le]
    by_cases h2 : c < b
    · simp [h2, min_eq_right h2.le]
    · simp [h2, min_eq_left (not_lt.mp h2)]
  · rw [if_neg h1, min_eq_left (not_lt.mp h1)]
    by_cases h2 : c < a
    · simp [h2, min_eq_right h2.le]
    · simp [h2, min_eq_left (not_lt.mp h2)]

theorem ite_fin (c : Prop) [Decidable c] (x y : ℚ) :
    (if c then Real.fin x else Real.fin y) = Real.fin (if c then x else y) := by
  split_ifs <;> rfl

theorem hueOf_fin (a b c : ℚ) (h : min (min a b) c < max (max a b) c) :
    hueOf (.fin a) (.fin b) (.fin c) =
      .fin (if rawHue a b c < 0 then rawHue a b c + 360 else rawHue a b c) := by
  have hd : max (max a b) c - min (min a b) c ≠ 0 := by linarith
  have hM : max (max a b) c = a ∨ max (max a b) c = b ∨ max (max a b) c = c := by
    rcases max_choice (max a b) c with h1 | h1
    · rcases max_choice a b with h2 | h2
      · left; rw [h1, h2]
      · right; left; rw [h1, h2]
    · right; right; exact h1
  have key : ∀ z : ℚ,
      (if max (max a b) c = c then
          60 * ((a - b) / (max (max a b) c - min (min a b) c) + 4)
        else if max (max a b) c = b then
          60 * ((c - a) / (max (max a b) c - min (min a b) c) + 2)
        else if max (max a b) c = a then
          60 * ((b - c) / (max (max a b) c - min (min a b) c))
        else z) = rawHue a b c := by
    intro z
    unfold rawHue
    by_cases hc : max (max a b) c = c
    · simp only [hc, if_true]
    · by_cases hb : max (max a b) c = b
      · simp only [hc, hb, if_true, if_false]
      · have ha : max (max a b) c = a := by tauto
        simp only [hc, hb, ha, if_true, if_false]
  simp only [hueOf, max3_fin, min3_fin, eq_fin, fin_sub, fin_div, hd, if_false, fin_mul,
    fin_add, decide_eq_true_eq, Bool.and_eq_true, ite_fin, lt_fin, key]

theorem ratio_bounds (x y M m : ℚ) (hx : m ≤ x ∧ x ≤ M) (hy : m ≤ y ∧ y ≤ M) (h : m < M) :
    -1 ≤ (x - y) / (M - m) ∧ (x - y) / (M - m) ≤ 1 := by
  have hd : 0 < M - m := by linarith
  constructor
  · rw [le_div_iff₀ hd]; linarith [hx.1, hy.2]
  · rw [div_le_one hd]; linarith [hx.2, hy.1]

theorem rawHue_bounds (a b c : ℚ) (h : min (min a b) c < max (max a b) c) :
    -60 ≤ rawHue a b c ∧ rawHue a b c ≤ 300 := by
  have ha : min (min a b) c ≤ a ∧ a ≤ max (max a b) c :=
    ⟨le_trans (min_le_left _ _) (min_le_left _ _), le_trans (le_max_left _ _) (le_max_left _ _)⟩
  have hb : min (min a b) c ≤ b ∧ b ≤ max (max a b) c :=
    ⟨le_trans (min_le_left _ _) (min_le_right _ _), le_trans (le_max_right _ _) (le_max_left _ _)⟩
  have hc : min (min a b) c ≤ c ∧ c ≤ max (max a b) c := ⟨min_le_right _ _, le_max_right _ _⟩
  have h1 := ratio_bounds a b _ _ ha hb h
  have h2 := ratio_bounds c a _ _ hc ha h
  have h3 := ratio_bounds b c _ _ hb hc h
  unfold rawHue
  simp only
  split_ifs <;> constructor <;> linarith [h1.1, h1.2, h2.1, h2.2, h3.1, h3.2]

theorem hueOf_range (a b c : ℚ) (h : min (min a b) c < max (max a b) c) :
    ∃ x, hueOf (.fin a) (.fin b) (.fin c) = .fin x ∧ 0 ≤ x ∧ x < 360 := by
  obtain ⟨h1, h2⟩ := rawHue_bounds a b c h
  refine ⟨_, hueOf_fin a b c h, ?_, ?_⟩ <;> split_ifs <;> linarith

theorem hueOf_grey (r : ℚ) : hueOf (.fin r) (.fin r) (.fin r) = .nan := by
  simp [hueOf, max3_fin, min3_fin]

theorem saturationOf_fin (a b c : ℚ) :
    saturationOf (.fin a) (.fin b) (.fin c) =
      .fin (if max (max a b) c = 0 then 0
        else (max (max a b) c - min (min a b) c) / max (max a b) c * 100) := by
  simp only [saturationOf, max3_fin, min3_fin, eq_fin, decide_eq_true_eq, fin_sub, fin_div]
  by_cases h : max (max a b) c = 0
  · simp [h]
  · simp [h]

theorem valueOf_fin (a b c : ℚ) :
    valueOf (.fin a) (.fin b) (.fin c) = .fin (max (max a b) c * 100) := by
  simp [valueOf, max3_fin]

theorem min_le_max3 (a b c : ℚ) : min (min a b) c ≤ max (max a b) c :=
  le_trans (min_le_right _ _) (le_max_right _ _)

theorem saturationOf_range (a b c : ℚ) (ha : 0 ≤ a) (hb : 0 ≤ b) (hc : 0 ≤ c) :
    ∃ x, saturationOf (.fin a) (.fin b) (.fin c) = .fin x ∧ 0 ≤ x ∧ x ≤ 100 := by
  refine ⟨_, saturationOf_fin a b c, ?_, ?_⟩
  · split_ifs with h
    · exact le_refl _
    · have hM : 0 ≤ max (max a b) c := le_trans hc (le_max_right _ _)
      have := min_le_max3 a b c
      apply mul_nonneg _ (by norm_num)
      apply div_nonneg _ hM
      linarith
  · split_ifs with h
    · norm_num
    · have hM : 0 ≤ max (max a b) c := le_trans hc (le_max_right _ _)
      have hM1 : 0 < max (max a b) c := lt_of_le_of_ne hM (Ne.symm h)
      have hm : 0 ≤ min (min a b) c := le_min (le_min ha hb) hc
      have : (max (max a b) c - min (min a b) c) / max (max a b) c ≤ 1 := by
        rw [div_le_one hM1]; linarith
      linarith

theorem valueOf_range (a b c : ℚ) (ha : 0 ≤ a ∧ a ≤ 1) (hb : 0 ≤ b ∧ b ≤ 1)
    (hc : 0 ≤ c ∧ c ≤ 1) :
    ∃ x, valueOf (.fin a) (.fin b) (.fin c) = .fin x ∧ 0 ≤ x ∧ x ≤ 100 := by
  refine ⟨_, valueOf_fin a b c, ?_, ?_⟩
  · have hM : 0 ≤ max (max a b) c := le_trans hc.1 (le_max_right _ _)
    linarith
  · have hM : max (max a b) c ≤ 1 := max_le (max_le ha.2 hb.2) hc.2
    linarith

theorem grey_of_not_lt (a b c : ℚ) (h : ¬ min (min a b) c < max (max a b) c) :
    a = b ∧ b = c := by
  have h0 : max (max a b) c ≤ min (min a b) c := not_lt.mp h
  have h1 : a ≤ max (max a b) c := le_trans (le_max_left _ _) (le_max_left _ _)
  have h2 : b ≤ max (max a b) c := le_trans (le_max_right _ _) (le_max_left _ _)
  have h3 : c ≤ max (max a b) c := le_max_right _ _
  have h4 : min (min a b) c ≤ a := le_trans (min_le_left _ _) (min_le_left _ _)
  have h5 : min (min a b) c ≤ b := le_trans (min_le_left _ _) (min_le_right _ _)
  have h6 : min (min a b) c ≤ c := min_le_right _ _
  constructor <;> linarith

theorem toHSV_cases (r g b : ℚ) (hr : 0 ≤ r ∧ r ≤ 1) (hg : 0 ≤ g ∧ g ≤ 1)
    (hb : 0 ≤ b ∧ b ≤ 1) :
    (∃ s, (toHSV ⟨.fin r, .fin g, .fin b⟩).saturation = .fin s ∧ 0 ≤ s ∧ s ≤ 100) ∧
    (∃ v, (toHSV ⟨.fin r, .fin g, .fin b⟩).value = .fin v ∧ 0 ≤ v ∧ v ≤ 100) ∧
    ((r = g ∧ g = b) → (toHSV ⟨.fin r, .fin g, .fin b⟩).hue = .nan) ∧
    (¬ (r = g ∧ g = b) →
      ∃ h, (toHSV ⟨.fin r, .fin g, .fin b⟩).hue = .fin h ∧ 0 ≤ h ∧ h < 360) := by
  refine ⟨saturationOf_range r g b hr.1 hg.1 hb.1, valueOf_range r g b hr hg hb, ?_, ?_⟩
  · rintro ⟨rfl, rfl⟩
    exact hueOf_grey r
  · intro hne
    apply hueOf_range
    by_contra hlt
    exact hne (grey_of_not_lt r g b hlt)

/-! ## Conversion and averaging: the settled properties -/

/-- C1: for a normalised colour the saturation and the value are in `[0, 100]`, and
the hue is in `[0, 360)` when the colour is not grey; on a grey colour, black
included, the hue is the non-finite result of `0 / 0` and in no range. -/
theorem toHSV_normalized (r g b : ℚ) (hr : 0 ≤ r ∧ r ≤ 1) (hg : 0 ≤ g ∧ g ≤ 1)
    (hb : 0 ≤ b ∧ b ≤ 1) :
    (∃ s, (toHSV ⟨.fin r, .fin g, .fin b⟩).saturation = .fin s ∧ 0 ≤ s ∧ s ≤ 100) ∧
    (∃ v, (toHSV ⟨.fin r, .fin g, .fin b⟩).value = .fin v ∧ 0 ≤ v ∧ v ≤ 100) ∧
    ((r = g ∧ g = b) → (toHSV ⟨.fin r, .fin g, .fin b⟩).hue = .nan) ∧
    (¬ (r = g ∧ g = b) →
      ∃ h, (toHSV ⟨.fin r, .fin g, .fin b⟩).hue = .fin h ∧ 0 ≤ h ∧ h < 360) :=
  toHSV_cases r g b hr hg hb

/-- Witness of C1 at black, a normalised colour: its hue is not finite. -/
theorem toHSV_normalized_witness :
    (toHSV ⟨.fin 0, .fin 0, .fin 0⟩).hue = .nan :=
  (toHSV_normalized 0 0 0 (by norm_num) (by norm_num) (by norm_num)).2.2.1 ⟨rfl, rfl⟩

/-- C2: for the black average colour the saturation and the value are 0, and the hue,
set to 0 by line 113 and then overwritten by lines 115-120, is not finite. -/
theorem toHSV_black : toHSV ⟨.fin 0, .fin 0, .fin 0⟩ = ⟨.nan, .fin 0, .fin 0⟩ := by
  norm_num [toHSV, hueOf, saturationOf, valueOf, max3, min3]

/-- C3: for a grey colour `(r, r, r)` with `0 < r ≤ 1` the saturation is 0 and the value
is `100 r`, and the hue is the non-finite result of the division by the zero delta. -/
theorem toHSV_grey (r : ℚ) (h0 : 0 < r) (_h1 : r ≤ 1) :
    toHSV ⟨.fin r, .fin r, .fin r⟩ = ⟨.nan, .fin 0, .fin (100 * r)⟩ := by
  have hr : r ≠ 0 := ne_of_gt h0
  simp [toHSV, hueOf_grey, saturationOf_fin, valueOf_fin, hr, mul_comm]

/-- Witness of C3 at the grey `(1/2, 1/2, 1/2)`. -/
theorem toHSV_grey_witness :
    toHSV ⟨.fin (1 / 2), .fin (1 / 2), .fin (1 / 2)⟩ = ⟨.nan, .fin 0, .fin (100 * (1 / 2))⟩ :=
  toHSV_grey (1 / 2) (by norm_num) (by norm_num)

/-- C4: pure red, green and blue give `(0, 100, 100)`, `(120, 100, 100)` and
`(240, 100, 100)`. -/
theorem toHSV_primaries :
    toHSV ⟨.fin 1, .fin 0, .fin 0⟩ = ⟨.fin 0, .fin 100, .fin 100⟩ ∧
    toHSV ⟨.fin 0, .fin 1, .fin 0⟩ = ⟨.fin 120, .fin 100, .fin 100⟩ ∧
    toHSV ⟨.fin 0, .fin 0, .fin 1⟩ = ⟨.fin 240, .fin 100, .fin 100⟩ := by
  refine ⟨?_, ?_, ?_⟩ <;> norm_num [toHSV, hueOf, saturationOf, valueOf, max3, min3]

/-- C9: when the search around a point returns exactly that point, the averaged colour
is the point's own colour divided by 255, channel by channel. -/
theorem averageColor_sole_neighbor (p : Params) (cloud : Cloud) (pt : Point)
    (h : cloud.FindPoints ⟨p.sphere_radius, pt.xyz⟩ = [pt]) :
    averageColor (cloud.FindPoints ⟨p.sphere_radius, pt.xyz⟩) =
      ⟨.fin (pt.color.x / 255), .fin (pt.color.y / 255), .fin (pt.color.z / 255)⟩ := by
  rw [h]
  simp [averageColor, sumColors, sumStep]

/-- Witness of C9: a cloud of one point with colour `(10, 20, 30)`. -/
theorem averageColor_sole_neighbor_witness :
    averageColor [(⟨⟨0, 0, 0⟩, ⟨10, 20, 30⟩⟩ : Point)] =
      ⟨.fin (10 / 255), .fin (20 / 255), .fin (30 / 255)⟩ :=
  averageColor_sole_neighbor ⟨6 / 10, 4, 4, 4⟩
    ⟨[⟨⟨0, 0, 0⟩, ⟨10, 20, 30⟩⟩], fun _ => [⟨⟨0, 0, 0⟩, ⟨10, 20, 30⟩⟩], []⟩
    ⟨⟨0, 0, 0⟩, ⟨10, 20, 30⟩⟩ rfl

/-- C10: for a non-empty neighbour set with colours in `[0, 255]` the averaged colour
is, per channel, the sum over the neighbours divided by their count and by 255, and
each component is in `[0, 1]`. -/
theorem averageColor_normalized (neighbors : PointsRange) (hne : neighbors ≠ [])
    (hv : ∀ q ∈ neighbors, q.color.valid) :
    averageColor neighbors =
      ⟨.fin ((neighbors.map (fun q => q.color.x)).sum / neighbors.length / 255),
       .fin ((neighbors.map (fun q => q.color.y)).sum / neighbors.length / 255),
       .fin ((neighbors.map (fun q => q.color.z)).sum / neighbors.length / 255)⟩ ∧
    (0 ≤ (neighbors.map (fun q => q.color.x)).sum / neighbors.length / 255 ∧
      (neighbors.map (fun q => q.color.x)).sum / neighbors.length / 255 ≤ 1) ∧
    (0 ≤ (neighbors.map (fun q => q.color.y)).sum / neighbors.length / 255 ∧
      (neighbors.map (fun q => q.color.y)).sum / neighbors.length / 255 ≤ 1) ∧
    (0 ≤ (neighbors.map (fun q => q.color.z)).sum / neighbors.length / 255 ∧
      (neighbors.map (fun q => q.color.z)).sum / neighbors.length / 255 ≤ 1) :=
  ⟨averageColor_eq neighbors hne,
   avg_bounds (fun q => q.color.x) neighbors hne (fun q hq => (hv q hq).1),
   avg_bounds (fun q => q.color.y) neighbors hne (fun q hq => (hv q hq).2.1),
   avg_bounds (fun q => q.color.z) neighbors hne (fun q hq => (hv q hq).2.2)⟩

/-- Witness of C10: two neighbours with colours `(255, 0, 10)` and `(0, 0, 20)`. -/
theorem averageColor_normalized_witness :
    averageColor [(⟨⟨0, 0, 0⟩, ⟨255, 0, 10⟩⟩ : Point), ⟨⟨1, 0, 0⟩, ⟨0, 0, 20⟩⟩] =
      ⟨.fin (1 / 2), .fin 0, .fin (1 / 17)⟩ := by
  have h := (averageColor_normalized
    [(⟨⟨0, 0, 0⟩, ⟨255, 0, 10⟩⟩ : Point), ⟨⟨1, 0, 0⟩, ⟨0, 0, 20⟩⟩] (by simp)
    (by norm_num [Color.valid])).1
  rw [h]
  norm_num

/-! ## The first loop -/

theorem pointStep_values (p : Params) (cloud : Cloud) (s : State) (xyz : XYZ) (c : Channel) :
    (pointStep p cloud s xyz).values c =
      s.values c ++ [StoredReal.ofReal ((sampleAt p cloud xyz).get c)] := by
  cases c <;> rfl

theorem pointStep_max (p : Params) (cloud : Cloud) (s : State) (xyz : XYZ) (c : Channel) :
    (pointStep p cloud s xyz).max c = updMax ((sampleAt p cloud xyz).get c) (s.max c) := by
  cases c <;> rfl

theorem pointStep_min (p : Params) (cloud : Cloud) (s : State) (xyz : XYZ) (c : Channel) :
    (pointStep p cloud s xyz).min c = updMin ((sampleAt p cloud xyz).get c) (s.min c) := by
  cases c <;> rfl

theorem pass1_spec (p : Params) (Update : Real → Bool) (cloud : Cloud) (c : Channel) :
    ∀ (pts : List Point) (s : State), (pass1 p Update cloud pts s).2 = false →
      (pass1 p Update cloud pts s).1.values c =
          s.values c ++
            pts.map (fun pt => StoredReal.ofReal ((sampleAt p cloud pt.xyz).get c)) ∧
      (pass1 p Update cloud pts s).1.max c =
          trackMax (pts.map (fun pt => (sampleAt p cloud pt.xyz).get c)) (s.max c) ∧
      (pass1 p Update cloud pts s).1.min c =
          trackMin (pts.map (fun pt => (sampleAt p cloud pt.xyz).get c)) (s.min c) := by
  intro pts
  induction pts with
  | nil => intro s _; simp [pass1, trackMax, trackMin]
  | cons pt rest ih =>
    intro s h
    simp only [pass1] at h ⊢
    split_ifs at h ⊢ with h1 h2
    · obtain ⟨e1, e2, e3⟩ := ih _ h
      rw [e1, e2, e3]
      refine ⟨?_, ?_, ?_⟩
      · show (pointStep p cloud s pt.xyz).values c ++ _ = _
        rw [pointStep_values]; simp
      · show trackMax _ ((pointStep p cloud s pt.xyz).max c) = _
        rw [pointStep_max]; simp [trackMax]
      · show trackMin _ ((pointStep p cloud s pt.xyz).min c) = _
        rw [pointStep_min]; simp [trackMin]
    · obtain ⟨e1, e2, e3⟩ := ih _ h
      rw [e1, e2, e3]
      refine ⟨?_, ?_, ?_⟩
      · rw [pointStep_values]; simp
      · rw [pointStep_max]; simp [trackMax]
      · rw [pointStep_min]; simp [trackMin]

theorem pass1_not_thrown (p : Params) (Update : Real → Bool) (cloud : Cloud) :
    ∀ (pts : List Point) (s : State), s.progress + pts.length < progress_step →
      (pass1 p Update cloud pts s).2 = false := by
  intro pts
  induction pts with
  | nil => intro s _; rfl
  | cons pt rest ih =>
    intro s h
    simp only [List.length_cons] at h
    have hp : (pointStep p cloud s pt.xyz).progress = s.progress + 1 := rfl
    have hmod : ¬ (pointStep p cloud s pt.xyz).progress % progress_step = 0 := by
      rw [hp, Nat.mod_eq_of_lt (by omega)]
      omega
    simp only [pass1, hmod, if_false]
    apply ih
    rw [hp]; omega

/-! ## Range tracking -/

theorem updMax_fin (v : Real) (m0 : ℚ) :
    ∃ m1 : ℚ, updMax v (.fin m0) = .fin m1 ∧ m0 ≤ m1 ∧
      (∀ a, v = .fin a → a ≤ m1) ∧ (m1 = m0 ∨ v = .fin m1) := by
  cases v with
  | nan => exact ⟨m0, by simp [updMax], le_refl _, by simp, Or.inl rfl⟩
  | fin a =>
    by_cases h : m0 < a
    · exact ⟨a, by simp [updMax, h], h.le, by simp, Or.inr rfl⟩
    · refine ⟨m0, by simp [updMax, h], le_refl _, ?_, Or.inl rfl⟩
      intro a1 ha1
      cases ha1
      exact not_lt.mp h

theorem updMin_fin (v : Real) (m0 : ℚ) :
    ∃ m1 : ℚ, updMin v (.fin m0) = .fin m1 ∧ m1 ≤ m0 ∧
      (∀ a, v = .fin a → m1 ≤ a) ∧ (m1 = m0 ∨ v = .fin m1) := by
  cases v with
  | nan => exact ⟨m0, by simp [updMin], le_refl _, by simp, Or.inl rfl⟩
  | fin a =>
    by_cases h : a < m0
    · exact ⟨a, by simp [updMin, h], h.le, by simp, Or.inr rfl⟩
    · refine ⟨m0, by simp [updMin, h], le_refl _, ?_, Or.inl rfl⟩
      intro a1 ha1
      cases ha1
      exact not_lt.mp h

theorem trackMax_fin (vals : List Real) :
    ∀ m0 : ℚ, ∃ M : ℚ, trackMax vals (.fin m0) = .fin M ∧ m0 ≤ M ∧
      (∀ a, Real.fin a ∈ vals → a ≤ M) ∧ (M = m0 ∨ Real.fin M ∈ vals) := by
  induction vals with
  | nil => intro m0; exact ⟨m0, rfl, le_refl _, by simp, Or.inl rfl⟩
  | cons v vals ih =>
    intro m0
    obtain ⟨m1, e1, h1, h2, h3⟩ := updMax_fin v m0
    obtain ⟨M, e, g1, g2, g3⟩ := ih m1
    refine ⟨M, ?_, le_trans h1 g1, ?_, ?_⟩
    · simp only [trackMax, List.foldl_cons] at e ⊢
      rw [e1]; exact e
    · intro a ha
      rcases List.mem_cons.mp ha with ha | ha
      · exact le_trans (h2 a ha.symm) g1
      · exact g2 a ha
    · rcases g3 with g3 | g3
      · rcases h3 with h3 | h3
        · left; rw [g3, h3]
        · right; rw [g3, ← h3]; exact List.mem_cons_self _ _
      · right; exact List.mem_cons_of_mem _ g3

theorem trackMin_fin (vals : List Real) :
    ∀ m0 : ℚ, ∃ m : ℚ, trackMin vals (.fin m0) = .fin m ∧ m ≤ m0 ∧
      (∀ a, Real.fin a ∈ vals → m ≤ a) ∧ (m = m0 ∨ Real.fin m ∈ vals) := by
  induction vals with
  | nil => intro m0; exact ⟨m0, rfl, le_refl _, by simp, Or.inl rfl⟩
  | cons v vals ih =>
    intro m0
    obtain ⟨m1, e1, h1, h2, h3⟩ := updMin_fin v m0
    obtain ⟨m, e, g1, g2, g3⟩ := ih m1
    refine ⟨m, ?_, le_trans g1 h1, ?_, ?_⟩
    · simp only [trackMin, List.foldl_cons] at e ⊢
      rw [e1]; exact e
    · intro a ha
      rcases List.mem_cons.mp ha with ha | ha
      · exact le_trans g1 (h2 a ha.symm)
      · exact g2 a ha
    · rcases g3 with g3 | g3
      · rcases h3 with h3 | h3
        · left; rw [g3, h3]
        · right; rw [g3, ← h3]; exact List.mem_cons_self _ _
      · right; exact List.mem_cons_of_mem _ g3

/-! ## The samples of a cloud with valid colours -/

theorem toHSV_nan : toHSV ⟨.nan, .nan, .nan⟩ = ⟨.fin 359, .nan, .nan⟩ := by
  norm_num [toHSV, hueOf, saturationOf, valueOf, max3, min3]

theorem averageColor_nil : averageColor [] = ⟨.nan, .nan, .nan⟩ := by
  norm_num [averageColor, sumColors]

theorem foldl_cluster (values : List StoredReal) (max min : Real) (clusters : Int) :
    ∀ acc : List StoredReal,
      values.foldl
          (fun seg it => seg ++ [StoredReal.ofReal (cluster_val it max min clusters)]) acc =
        acc ++ values.map (fun it => StoredReal.ofReal (cluster_val it max min clusters)) := by
  induction values with
  | nil => intro acc; simp
  | cons v values ih => intro acc; simp [ih]

theorem segmentation_eq_map (values : List StoredReal) (max min : Real) (clusters : Int) :
    segmentation values max min clusters =
      values.map (fun it => StoredReal.ofReal (cluster_val it max min clusters)) := by
  simp [segmentation, foldl_cluster]

theorem savedLayers_cons (name : String) (vals zeros : List StoredReal) (l : Layer)
    (ls : List Layer) (hl : ¬ l.name = name) :
    savedLayers name vals zeros (l :: ls) = l :: savedLayers name vals zeros ls := by
  simp only [savedLayers, findLayers, hl, if_false]
  cases findLayers name ls with
  | nil => simp [setVals]
  | cons i is => simp [setVals]

theorem savedLayers_find (name : String) (vals zeros : List StoredReal) (m : String) :
    ∀ ls : List Layer,
      ((savedLayers name vals zeros ls).find? (fun l => l.name = m)).map (fun l => l.vals) =
        if m = name then some vals
        else (ls.find? (fun l => l.name = m)).map (fun l => l.vals) := by
  intro ls
  induction ls with
  | nil =>
    by_cases h : name = m
    · simp [savedLayers, findLayers, setVals, h]
    · have h2 : ¬ m = name := fun e => h e.symm
      simp [savedLayers, findLayers, setVals, h, h2]
  | cons l ls ih =>
    by_cases hl : l.name = name
    · by_cases h : name = m
      · simp [savedLayers, findLayers, setVals, hl, h]
      · have h2 : ¬ m = name := fun e => h e.symm
        simp [savedLayers, findLayers, setVals, hl, h, h2]
    · rw [savedLayers_cons name vals zeros l ls hl]
      by_cases h : l.name = m
      · have h2 : ¬ m = name := fun e => hl (h.trans e)
        simp [h, h2]
      · simp only [List.find?_cons, h, decide_False]
        exact ih

theorem saveLayer_layers (cloud : Cloud) (name : String) (vals : List StoredReal) :
    (saveLayer cloud name vals).layers =
      savedLayers name vals (List.replicate cloud.points.length ⟨.fin 0⟩) cloud.layers := by
  unfold saveLayer savedLayers
  cases hf : findLayers name cloud.layers with
  | nil => simp [createLayer, setLayerVals]
  | cons i is => simp [setLayerVals]

theorem layerVals_saveLayer (cloud : Cloud) (name : String) (vals : List StoredReal)
    (m : String) :
    layerVals (saveLayer cloud name vals) m =
      if m = name then some vals else layerVals cloud m := by
  unfold layerVals
  rw [saveLayer_layers]
  exact savedLayers_find name vals _ m cloud.layers

theorem Run_thrown (p : Params) (Update : Real → Bool) (cloud : Cloud) :
    (Run p Update cloud).thrown = (pass1 p Update cloud cloud.points State.init).2 := by
  unfold Run
  simp only
  split_ifs with h
  · simp [h]
  · simp at h; simp [h]

theorem Run_layers (p : Params) (Update : Real → Bool) (cloud : Cloud)
    (h : (Run p Update cloud).thrown = false) (c : Channel) :
    layerVals (Run p Update cloud).cloud (segName c) =
        some (((finalState p Update cloud).values c).map
          (fun it => StoredReal.ofReal (cluster_val it ((finalState p Update cloud).max c)
            ((finalState p Update cloud).min c) (p.clusters c)))) ∧
    layerVals (Run p Update cloud).cloud (featName c) =
        some ((finalState p Update cloud).values c) := by
  rw [Run_thrown] at h
  unfold Run
  simp only [h, Bool.false_eq_true, if_false, layerVals_saveLayer, segmentation_eq_map,
    finalState]
  cases c <;> simp [segName, featName, State.values, State.max, State.min, Params.clusters]

/-! ## The state after the first loop -/

theorem finalState_spec (p : Params) (Update : Real → Bool) (cloud : Cloud)
    (h : (Run p Update cloud).thrown = false) (c : Channel) :
    (finalState p Update cloud).values c = buffered p cloud c ∧
    (finalState p Update cloud).max c = trackMax (samples p cloud c) (.fin (-1)) ∧
    (finalState p Update cloud).min c = trackMin (samples p cloud c) (.fin 500) := by
  rw [Run_thrown] at h
  obtain ⟨e1, e2, e3⟩ := pass1_spec p Update cloud c cloud.points State.init h
  refine ⟨?_, ?_, ?_⟩
  · rw [finalState, e1]; cases c <;> simp [State.init, State.values, samples, buffered]
  · rw [finalState, e2]; cases c <;> rfl
  · rw [finalState, e3]; cases c <;> rfl

theorem cluster_val_fin (a M m : ℚ) (k : Int) :
    cluster_val ⟨.fin a⟩ (.fin M) (.fin m) k =
      if M - m = 0 then .nan else .fin (⌊toFloat32 a / (M - m) * k⌋ : ℤ) := by
  simp only [cluster_val, toFloat_fin, fin_sub, fin_div, Real.ofInt]
  split_ifs <;> simp

theorem cluster_val_nan (M m : Real) (k : Int) : cluster_val ⟨.nan⟩ M m k = .nan := by
  simp [cluster_val]

theorem cluster_val_same (v : StoredReal) (M : Real) (k : Int) :
    cluster_val v M M k = .nan := by
  obtain ⟨v⟩ := v
  cases v <;> cases M <;> simp [cluster_val]

theorem toHSV_red : toHSV ⟨.fin 1, .fin 0, .fin 0⟩ = ⟨.fin 0, .fin 100, .fin 100⟩ := by
  norm_num [toHSV, hueOf, saturationOf, valueOf, max3, min3]

theorem toHSV_green : toHSV ⟨.fin 0, .fin 1, .fin 0⟩ = ⟨.fin 120, .fin 100, .fin 100⟩ := by
  norm_num [toHSV, hueOf, saturationOf, valueOf, max3, min3]

theorem averageColor_red : averageColor [redPoint] = ⟨.fin 1, .fin 0, .fin 0⟩ := by
  norm_num [averageColor, sumColors, sumStep, redPoint]

theorem averageColor_green : averageColor [greenPoint] = ⟨.fin 0, .fin 1, .fin 0⟩ := by
  norm_num [averageColor, sumColors, sumStep, greenPoint]

theorem pass1_continue (p : Params) (Update : Real → Bool) (cloud : Cloud)
    (hU : ∀ f, Update f = true) :
    ∀ (pts : List Point) (s : State), (pass1 p Update cloud pts s).2 = false := by
  intro pts
  induction pts with
  | nil => intro s; rfl
  | cons pt rest ih =>
    intro s
    simp only [pass1, hU, if_true]
    split_ifs <;> exact ih _

theorem Run_small (p : Params) (Update : Real → Bool) (cloud : Cloud)
    (h : cloud.points.length < progress_step) : (Run p Update cloud).thrown = false := by
  rw [Run_thrown]
  apply pass1_not_thrown
  simpa [State.init] using h

theorem samples_length (p : Params) (cloud : Cloud) (c : Channel) :
    (samples p cloud c).length = cloud.points.length := by
  simp [samples]

theorem sampleAt_empty (p : Params) (cloud : Cloud) (xyz : XYZ)
    (h : cloud.FindPoints ⟨p.sphere_radius, xyz⟩ = []) :
    sampleAt p cloud xyz = ⟨.fin 359, .nan, .nan⟩ := by
  simp only [sampleAt, h, averageColor_nil, toHSV_nan]

theorem sampleAt_redCloud :
    sampleAt defaultParams redCloud redPoint.xyz = ⟨.fin 0, .fin 100, .fin 100⟩ := by
  simp only [sampleAt, redCloud, averageColor_red, toHSV_red]

theorem sampleAt_redGreen_red :
    sampleAt defaultParams redGreenCloud redPoint.xyz = ⟨.fin 0, .fin 100, .fin 100⟩ := by
  simp only [sampleAt, redGreenCloud, if_true, averageColor_red, toHSV_red]

theorem sampleAt_redGreen_green :
    sampleAt defaultParams redGreenCloud greenPoint.xyz = ⟨.fin 120, .fin 100, .fin 100⟩ := by
  have h : ¬ greenPoint.xyz = redPoint.xyz := by simp [greenPoint, redPoint]
  simp only [sampleAt, redGreenCloud, h, if_false, averageColor_green, toHSV_green]

theorem samples_redCloud (c : Channel) :
    samples defaultParams redCloud c = [(HSV.mk (.fin 0) (.fin 100) (.fin 100)).get c] := by
  show [(sampleAt defaultParams redCloud redPoint.xyz).get c] = _
  rw [sampleAt_redCloud]

theorem samples_lonely (c : Channel) :
    samples defaultParams lonelyCloud c = [(HSV.mk (.fin 359) .nan .nan).get c] := by
  show [(sampleAt defaultParams lonelyCloud redPoint.xyz).get c] = _
  rw [sampleAt_empty defaultParams lonelyCloud redPoint.xyz rfl]

theorem validColors_redCloud : redCloud.validColors defaultParams := by
  intro pt _ q hq
  have hq2 : q = redPoint := by simpa [redCloud] using hq
  subst hq2
  norm_num [Color.valid, redPoint]

theorem toFloat32_100 : toFloat32 100 = 100 := by simpa using toFloat32_nat 100 (by norm_num)
theorem toFloat32_120 : toFloat32 120 = 120 := by simpa using toFloat32_nat 120 (by norm_num)
theorem toFloat32_240 : toFloat32 240 = 240 := by simpa using toFloat32_nat 240 (by norm_num)
theorem toFloat32_359 : toFloat32 359 = 359 := by simpa using toFloat32_nat 359 (by norm_num)

theorem buffered_length (p : Params) (cloud : Cloud) (c : Channel) :
    (buffered p cloud c).length = cloud.points.length := by
  simp [buffered, samples]

theorem buffered_get (p : Params) (cloud : Cloud) (c : Channel) (i : Nat)
    (hi : i < cloud.points.length) :
    (buffered p cloud c)[i]? =
      some (StoredReal.ofReal ((sampleAt p cloud (cloud.points.get ⟨i, hi⟩).xyz).get c)) := by
  simp [buffered, samples, List.getElem?_eq_getElem hi]

theorem Run_arrays (p : Params) (Update : Real → Bool) (cloud : Cloud)
    (h : (Run p Update cloud).thrown = false) (c : Channel) :
    ∃ feat seg : List StoredReal,
      layerVals (Run p Update cloud).cloud (featName c) = some feat ∧
      layerVals (Run p Update cloud).cloud (segName c) = some seg ∧
      feat.length = cloud.points.length ∧ seg.length = cloud.points.length ∧
      ∀ (i : Nat) (hi : i < cloud.points.length),
        feat[i]? = some (StoredReal.ofReal
          ((sampleAt p cloud (cloud.points.get ⟨i, hi⟩).xyz).get c)) ∧
        seg[i]? = some (StoredReal.ofReal (cluster_val
          (StoredReal.ofReal ((sampleAt p cloud (cloud.points.get ⟨i, hi⟩).xyz).get c))
          ((finalState p Update cloud).max c) ((finalState p Update cloud).min c)
          (p.clusters c))) := by
  obtain ⟨e1, _, _⟩ := finalState_spec p Update cloud h c
  obtain ⟨l1, l2⟩ := Run_layers p Update cloud h c
  refine ⟨_, _, l2, l1, ?_, ?_, ?_⟩
  · rw [e1, buffered_length]
  · rw [List.length_map, e1, buffered_length]
  · intro i hi
    rw [e1]
    refine ⟨buffered_get p cloud c i hi, ?_⟩
    rw [List.getElem?_map, buffered_get p cloud c i hi]
    rfl

theorem label_same (v : Real) (M : Real) (k : Int) :
    StoredReal.ofReal (cluster_val (StoredReal.ofReal v) M M k) = ⟨.nan⟩ := by
  rw [cluster_val_same]; rfl

theorem redGreen_small : (Run defaultParams alwaysContinue redGreenCloud).thrown = false :=
  Run_small defaultParams alwaysContinue redGreenCloud (by decide)

theorem redCloud_small : (Run defaultParams alwaysContinue redCloud).thrown = false :=
  Run_small defaultParams alwaysContinue redCloud (by decide)

theorem finalRange_redCloud_H :
    (finalState defaultParams alwaysContinue redCloud).max .H = .fin 0 ∧
    (finalState defaultParams alwaysContinue redCloud).min .H = .fin 0 := by
  obtain ⟨_, e2, e3⟩ := finalState_spec defaultParams alwaysContinue redCloud redCloud_small .H
  rw [e2, e3, samples_redCloud]
  norm_num [HSV.get, trackMax, trackMin, updMax, updMin]

theorem labels_redCloud_H :
    layerVals (Run defaultParams alwaysContinue redCloud).cloud (segName .H) =
      some [⟨.nan⟩] := by
  obtain ⟨e1, _, _⟩ := finalState_spec defaultParams alwaysContinue redCloud redCloud_small .H
  rw [(Run_layers defaultParams alwaysContinue redCloud redCloud_small .H).1, e1,
    finalRange_redCloud_H.1, finalRange_redCloud_H.2, buffered, samples_redCloud]
  simp only [HSV.get, List.map_cons, List.map_nil, label_same]

/-- Counterexample to C7: in the cloud of one red point the final maximum and minimum
of the hue are equal, and the hue label is not finite instead of 0. -/
theorem degenerate_range_not_bucket_zero :
    (finalState defaultParams alwaysContinue redCloud).max .H =
      (finalState defaultParams alwaysContinue redCloud).min .H ∧
    layerVals (Run defaultParams alwaysContinue redCloud).cloud (segName .H) =
      some [⟨.nan⟩] ∧
    layerVals (Run defaultParams alwaysContinue redCloud).cloud (segName .H) ≠
      some [⟨.fin 0⟩] := by
  refine ⟨?_, labels_redCloud_H, ?_⟩
  · rw [finalRange_redCloud_H.1, finalRange_redCloud_H.2]
  · rw [labels_redCloud_H]; simp

/-- C7, amended: when the final maximum of a channel equals its final minimum, the
division by the zero width makes every label of that channel non-finite; there is one
such label per point and none is 0. -/
theorem degenerate_range_labels (p : Params) (Update : Real → Bool) (cloud : Cloud)
    (h : (Run p Update cloud).thrown = false) (c : Channel)
    (hdeg : (finalState p Update cloud).max c = (finalState p Update cloud).min c) :
    ∃ labels : List StoredReal,
      layerVals (Run p Update cloud).cloud (segName c) = some labels ∧
      labels.length = cloud.points.length ∧ ∀ b ∈ labels, b = ⟨.nan⟩ := by
  obtain ⟨e1, _, _⟩ := finalState_spec p Update cloud h c
  refine ⟨_, (Run_layers p Update cloud h c).1, ?_, ?_⟩
  · rw [List.length_map, e1, buffered_length]
  · intro b hb
    obtain ⟨v, _, rfl⟩ := List.mem_map.mp hb
    rw [hdeg, cluster_val_same]
    rfl

/-- Witness of C7, amended: the hue channel of the cloud of one red point. -/
theorem degenerate_range_labels_witness :
    ∃ labels : List StoredReal,
      layerVals (Run defaultParams alwaysContinue redCloud).cloud (segName .H) =
        some labels ∧
      labels.length = redCloud.points.length ∧ ∀ b ∈ labels, b = ⟨.nan⟩ :=
  degenerate_range_labels defaultParams alwaysContinue redCloud redCloud_small .H
    (by rw [finalRange_redCloud_H.1, finalRange_redCloud_H.2])

/-- Counterexample to C8: the search of the only point of the cloud returns nothing,
the average is the non-finite `0 / 0` in every channel, and the run is not aborted:
it writes the six layers. -/
theorem empty_neighborhood_not_rejected :
    lonelyCloud.FindPoints ⟨defaultParams.sphere_radius, redPoint.xyz⟩ = [] ∧
    averageColor (lonelyCloud.FindPoints ⟨defaultParams.sphere_radius, redPoint.xyz⟩) =
      ⟨.nan, .nan, .nan⟩ ∧
    (Run defaultParams alwaysContinue lonelyCloud).thrown = false ∧
    layerVals (Run defaultParams alwaysContinue lonelyCloud).cloud "HUE" =
      some [⟨.fin 359⟩] ∧
    layerVals (Run defaultParams alwaysContinue lonelyCloud).cloud "SATURATION" =
      some [⟨.nan⟩] ∧
    layerVals (Run defaultParams alwaysContinue lonelyCloud).cloud "VALUE" =
      some [⟨.nan⟩] ∧
    layerVals (Run defaultParams alwaysContinue lonelyCloud).cloud "segmentation_H" =
      some [⟨.nan⟩] ∧
    layerVals (Run defaultParams alwaysContinue lonelyCloud).cloud "segmentation_S" =
      some [⟨.nan⟩] ∧
    layerVals (Run defaultParams alwaysContinue lonelyCloud).cloud "segmentation_V" =
      some [⟨.nan⟩] := by
  have hrun := Run_small defaultParams alwaysContinue lonelyCloud (by decide)
  have hH := finalState_spec defaultParams alwaysContinue lonelyCloud hrun .H
  have hS := finalState_spec defaultParams alwaysContinue lonelyCloud hrun .S
  have hV := finalState_spec defaultParams alwaysContinue lonelyCloud hrun .V
  have lH := Run_layers defaultParams alwaysContinue lonelyCloud hrun .H
  have lS := Run_layers defaultParams alwaysContinue lonelyCloud hrun .S
  have lV := Run_layers defaultParams alwaysContinue lonelyCloud hrun .V
  rw [hH.1, hH.2.1, hH.2.2, buffered, samples_lonely] at lH
  rw [hS.1, hS.2.1, hS.2.2, buffered, samples_lonely] at lS
  rw [hV.1, hV.2.1, hV.2.2, buffered, samples_lonely] at lV
  simp only [HSV.get, List.map_cons, List.map_nil, ofReal_fin, ofReal_nan, toFloat32_359,
    cluster_val_nan] at lH lS lV
  refine ⟨rfl, averageColor_nil, hrun, lH.2, lS.2, lV.2, ?_, ?_, ?_⟩
  · rw [show "segmentation_H" = segName .H from rfl, lH.1]
    norm_num [trackMax, trackMin, updMax, updMin, cluster_val, Real.ofInt, toFloat32_359,
      ofReal_nan]
  · rw [show "segmentation_S" = segName .S from rfl, lS.1]
  · rw [show "segmentation_V" = segName .V from rfl, lV.1]

/-- C8, amended: `Run` has no check of the neighbour count.  For a point whose search
returns nothing the average is the non-finite `0 / 0` in every channel and the sample
is hue 359 with non-finite saturation and value; the run goes on, and unless it is
cancelled through the progress channel (which cannot happen when that channel always
answers true or the cloud has fewer than 10000 points) it writes the six layers, one
entry per point, the feature layers holding that sample. -/
theorem empty_neighborhood_continues (p : Params) (Update : Real → Bool) (cloud : Cloud)
    (pt : Point) (hpt : pt ∈ cloud.points)
    (hempty : cloud.FindPoints ⟨p.sphere_radius, pt.xyz⟩ = []) :
    averageColor (cloud.FindPoints ⟨p.sphere_radius, pt.xyz⟩) = ⟨.nan, .nan, .nan⟩ ∧
    sampleAt p cloud pt.xyz = ⟨.fin 359, .nan, .nan⟩ ∧
    (((∀ f, Update f = true) ∨ cloud.points.length < progress_step) →
      (Run p Update cloud).thrown = false) ∧
    ((Run p Update cloud).thrown = false → ∀ c : Channel,
      (∃ vals, layerVals (Run p Update cloud).cloud (featName c) = some vals ∧
        vals.length = cloud.points.length ∧
        StoredReal.mk ((HSV.mk (.fin 359) .nan .nan).get c) ∈ vals) ∧
      (∃ labels, layerVals (Run p Update cloud).cloud (segName c) = some labels ∧
        labels.length = cloud.points.length)) := by
  refine ⟨by rw [hempty, averageColor_nil], sampleAt_empty p cloud pt.xyz hempty, ?_, ?_⟩
  · rintro (hU | hsmall)
    · rw [Run_thrown]; exact pass1_continue p Update cloud hU _ _
    · exact Run_small p Update cloud hsmall
  · intro h c
    obtain ⟨e1, _, _⟩ := finalState_spec p Update cloud h c
    obtain ⟨l1, l2⟩ := Run_layers p Update cloud h c
    refine ⟨⟨_, l2, by rw [e1, buffered_length], ?_⟩, ⟨_, l1, ?_⟩⟩
    · rw [e1]
      have hmem : StoredReal.ofReal ((sampleAt p cloud pt.xyz).get c) ∈ buffered p cloud c :=
        List.mem_map.mpr ⟨_, List.mem_map.mpr ⟨pt, hpt, rfl⟩, rfl⟩
      rw [sampleAt_empty p cloud pt.xyz hempty] at hmem
      have hfix : StoredReal.ofReal ((HSV.mk (.fin 359) .nan .nan).get c) =
          StoredReal.mk ((HSV.mk (.fin 359) .nan .nan).get c) := by
        cases c <;> simp [HSV.get, StoredReal.ofReal, toFloat32_359]
      rw [← hfix]
      exact hmem
    · rw [List.length_map, e1, buffered_length]

/-- Witness of C8, amended: the cloud of one point whose search returns nothing. -/
theorem empty_neighborhood_continues_witness :
    (Run defaultParams alwaysContinue lonelyCloud).thrown = false ∧
    sampleAt defaultParams lonelyCloud redPoint.xyz = ⟨.fin 359, .nan, .nan⟩ :=
  have h := empty_neighborhood_continues defaultParams alwaysContinue lonelyCloud redPoint
    (by simp [lonelyCloud]) rfl
  ⟨h.2.2.1 (Or.inl (fun _ => rfl)), h.2.1⟩

/-! ## The hue: precedence and sectors -/

theorem max3_cases (a b c : ℚ) :
    max (max a b) c = a ∨ max (max a b) c = b ∨ max (max a b) c = c := by
  rcases max_choice (max a b) c with h1 | h1
  · rcases max_choice a b with h2 | h2
    · left; rw [h1, h2]
    · right; left; rw [h1, h2]
  · right; right; exact h1

theorem min3_cases (a b c : ℚ) :
    min (min a b) c = a ∨ min (min a b) c = b ∨ min (min a b) c = c := by
  rcases min_choice (min a b) c with h1 | h1
  · rcases min_choice a b with h2 | h2
    · left; rw [h1, h2]
    · right; left; rw [h1, h2]
  · right; right; exact h1

theorem specHue_fin (a b c : ℚ) (h : min (min a b) c < max (max a b) c) :
    specHue (.fin a) (.fin b) (.fin c) = .fin (wrapHue (firstHue a b c)) := by
  have hd : max (max a b) c - min (min a b) c ≠ 0 := by linarith
  have h0 : ¬ (max (max a b) c = 0 ∧ min (min a b) c = 0) := by
    rintro ⟨e1, e2⟩; rw [e1, e2] at h; exact lt_irrefl _ h
  have key : (if max (max a b) c = a then
          60 * ((b - c) / (max (max a b) c - min (min a b) c))
        else if max (max a b) c = b then
          60 * ((c - a) / (max (max a b) c - min (min a b) c) + 2)
        else 60 * ((a - b) / (max (max a b) c - min (min a b) c) + 4)) = firstHue a b c := rfl
  simp only [specHue, max3_fin, min3_fin, eq_fin, fin_sub, fin_div, hd, if_false, fin_mul,
    fin_add, decide_eq_true_eq, Bool.and_eq_true, h0, ite_fin, lt_fin, key, wrapHue]

theorem hueOf_wrap (a b c : ℚ) (h : min (min a b) c < max (max a b) c) :
    hueOf (.fin a) (.fin b) (.fin c) = .fin (wrapHue (rawHue a b c)) :=
  hueOf_fin a b c h

theorem wrap_raw_eq_first (a b c : ℚ) (h : min (min a b) c < max (max a b) c) :
    wrapHue (rawHue a b c) = wrapHue (firstHue a b c) := by
  have hM := max3_cases a b c
  have hm := min3_cases a b c
  unfold rawHue firstHue
  simp only
  generalize max (max a b) c = M at *
  generalize min (min a b) c = m at *
  have hd : M - m ≠ 0 := by linarith
  by_cases e1 : M = a <;> by_cases e2 : M = b <;> by_cases e3 : M = c
  · exfalso; rcases hm with r | r | r <;> linarith
  · have hmc : m = c := by
      rcases hm with r | r | r
      · linarith
      · linarith
      · exact r
    have q1 : (c - a) / (M - m) = -1 := by rw [div_eq_iff hd]; linarith
    have q2 : (b - c) / (M - m) = 1 := by rw [div_eq_iff hd]; linarith
    simp only [if_pos e1, if_pos e2, if_neg e3, q1, q2]
    norm_num
  · have hmb : m = b := by
      rcases hm with r | r | r
      · linarith
      · exact r
      · linarith
    have q1 : (a - b) / (M - m) = 1 := by rw [div_eq_iff hd]; linarith
    have q2 : (b - c) / (M - m) = -1 := by rw [div_eq_iff hd]; linarith
    simp only [if_pos e1, if_pos e3, q1, q2]
    norm_num [wrapHue]
  · simp only [if_pos e1, if_neg e2, if_neg e3]
  · have hma : m = a := by
      rcases hm with r | r | r
      · exact r
      · linarith
      · linarith
    have q1 : (a - b) / (M - m) = -1 := by rw [div_eq_iff hd]; linarith
    have q2 : (c - a) / (M - m) = 1 := by rw [div_eq_iff hd]; linarith
    simp only [if_neg e1, if_pos e2, if_pos e3, q1, q2]
    norm_num
  · simp only [if_neg e1, if_pos e2, if_neg e3]
  · simp only [if_neg e1, if_neg e2, if_pos e3]
  · exfalso; tauto

theorem hue_refines_spec (a b c : ℚ) (h : min (min a b) c < max (max a b) c) :
    hueOf (.fin a) (.fin b) (.fin c) = specHue (.fin a) (.fin b) (.fin c) := by
  rw [hueOf_wrap a b c h, specHue_fin a b c h, wrap_raw_eq_first a b c h]

theorem max3_eq_left (a b c : ℚ) (h1 : b ≤ a) (h2 : c ≤ a) : max (max a b) c = a := by
  rw [max_eq_left h1, max_eq_left h2]

theorem max3_eq_mid (a b c : ℚ) (h1 : a ≤ b) (h2 : c ≤ b) : max (max a b) c = b := by
  rw [max_eq_right h1, max_eq_left h2]

theorem max3_eq_right (a b c : ℚ) (h1 : a ≤ c) (h2 : b ≤ c) : max (max a b) c = c :=
  max_eq_right (max_le h1 h2)

theorem rawHue_sector (a b c : ℚ) (h : min (min a b) c < max (max a b) c) :
    ((b < a ∧ c < a) → -60 ≤ rawHue a b c ∧ rawHue a b c ≤ 60) ∧
    ((a ≤ b ∧ c < b) → 60 ≤ rawHue a b c ∧ rawHue a b c ≤ 180) ∧
    ((a ≤ c ∧ b ≤ c) → 180 ≤ rawHue a b c ∧ rawHue a b c ≤ 300) := by
  have ha : min (min a b) c ≤ a ∧ a ≤ max (max a b) c :=
    ⟨le_trans (min_le_left _ _) (min_le_left _ _), le_trans (le_max_left _ _) (le_max_left _ _)⟩
  have hb : min (min a b) c ≤ b ∧ b ≤ max (max a b) c :=
    ⟨le_trans (min_le_left _ _) (min_le_right _ _), le_trans (le_max_right _ _) (le_max_left _ _)⟩
  have hc : min (min a b) c ≤ c ∧ c ≤ max (max a b) c := ⟨min_le_right _ _, le_max_right _ _⟩
  have h1 := ratio_bounds a b _ _ ha hb h
  have h2 := ratio_bounds c a _ _ hc ha h
  have h3 := ratio_bounds b c _ _ hb hc h
  refine ⟨?_, ?_, ?_⟩
  · rintro ⟨g1, g2⟩
    have e := max3_eq_left a b c g1.le g2.le
    have n1 : ¬ max (max a b) c = c := by rw [e]; exact ne_of_gt g2
    have n2 : ¬ max (max a b) c = b := by rw [e]; exact ne_of_gt g1
    unfold rawHue
    simp only [if_neg n1, if_neg n2]
    constructor <;> linarith [h3.1, h3.2]
  · rintro ⟨g1, g2⟩
    have e := max3_eq_mid a b c g1 g2.le
    have n1 : ¬ max (max a b) c = c := by rw [e]; exact ne_of_gt g2
    unfold rawHue
    simp only [if_neg n1, if_pos e]
    constructor <;> linarith [h2.1, h2.2]
  · rintro ⟨g1, g2⟩
    have e := max3_eq_right a b c g1 g2
    unfold rawHue
    simp only [if_pos e]
    constructor <;> linarith [h1.1, h1.2]

theorem hueOf_sector (a b c : ℚ) (h : min (min a b) c < max (max a b) c) :
    ∃ x, hueOf (.fin a) (.fin b) (.fin c) = .fin x ∧
      ((b < a ∧ c < a) → (0 ≤ x ∧ x ≤ 60) ∨ (300 ≤ x ∧ x < 360)) ∧
      ((a ≤ b ∧ c < b) → 60 ≤ x ∧ x ≤ 180) ∧
      ((a ≤ c ∧ b ≤ c) → 180 ≤ x ∧ x ≤ 300) := by
  obtain ⟨s1, s2, s3⟩ := rawHue_sector a b c h
  refine ⟨_, hueOf_wrap a b c h, ?_, ?_, ?_⟩
  · intro g
    obtain ⟨l, u⟩ := s1 g
    unfold wrapHue
    split_ifs with hneg
    · right; constructor <;> linarith
    · left; constructor <;> linarith
  · intro g
    obtain ⟨l, u⟩ := s2 g
    unfold wrapHue
    split_ifs with hneg
    · linarith
    · exact ⟨l, u⟩
  · intro g
    obtain ⟨l, u⟩ := s3 g
    unfold wrapHue
    split_ifs with hneg
    · linarith
    · exact ⟨l, u⟩

/-! ## The hue: the settled properties -/

/-- C16: for a colour with `max > min` (normalised or not) the hue of the independent
`if` statements of lines 113-122, where a later matching channel overwrites an earlier
one, is the hue of the first-match chain of the spec, and it is finite: when two
channels tie for the maximum their branches agree after the wrap. -/
theorem hue_matches_precedence_chain (r g b : ℚ)
    (h : min (min r g) b < max (max r g) b) :
    hueOf (.fin r) (.fin g) (.fin b) = specHue (.fin r) (.fin g) (.fin b) ∧
    ∃ x, hueOf (.fin r) (.fin g) (.fin b) = .fin x :=
  ⟨hue_refines_spec r g b h, _, hueOf_wrap r g b h⟩

/-- Witness of C16: red and blue tie for the maximum in `(1, 0, 1)`. -/
theorem hue_matches_precedence_chain_witness :
    hueOf (.fin 1) (.fin 0) (.fin 1) = specHue (.fin 1) (.fin 0) (.fin 1) ∧
    ∃ x, hueOf (.fin 1) (.fin 0) (.fin 1) = .fin x :=
  hue_matches_precedence_chain 1 0 1 (by norm_num)

/-- C19: for a colour with `max > min` the hue is finite and lies in the sector of the
maximal channel: `[0, 60]` or `[300, 360)` when red is the only maximum, `[60, 180]`
when green is a maximum and blue is not, `[180, 300]` when blue is a maximum. -/
theorem hue_in_sector (r g b : ℚ) (h : min (min r g) b < max (max r g) b) :
    ∃ x, hueOf (.fin r) (.fin g) (.fin b) = .fin x ∧
      ((g < r ∧ b < r) → (0 ≤ x ∧ x ≤ 60) ∨ (300 ≤ x ∧ x < 360)) ∧
      ((r ≤ g ∧ b < g) → 60 ≤ x ∧ x ≤ 180) ∧
      ((r ≤ b ∧ g ≤ b) → 180 ≤ x ∧ x ≤ 300) :=
  hueOf_sector r g b h

/-- Witness of C19: the colour `(1/2, 1, 0)`, whose maximum is green. -/
theorem hue_in_sector_witness :
    ∃ x, hueOf (.fin (1 / 2)) (.fin 1) (.fin 0) = .fin x ∧
      (((1 : ℚ) < 1 / 2 ∧ (0 : ℚ) < 1 / 2) → (0 ≤ x ∧ x ≤ 60) ∨ (300 ≤ x ∧ x < 360)) ∧
      (((1 / 2 : ℚ) ≤ 1 ∧ (0 : ℚ) < 1) → 60 ≤ x ∧ x ≤ 180) ∧
      (((1 / 2 : ℚ) ≤ 0 ∧ (1 : ℚ) ≤ 0) → 180 ≤ x ∧ x ≤ 300) :=
  hue_in_sector (1 / 2) 1 0 (by norm_num)

/-! ## The quantization formula -/

theorem cluster_val_mono (M m : ℚ) (k : Int) (hlt : m < M) (hk : 0 ≤ k) (v1 v2 : ℚ)
    (hv : v1 ≤ v2) :
    ∃ n1 n2 : ℤ, cluster_val ⟨.fin v1⟩ (.fin M) (.fin m) k = .fin n1 ∧
      cluster_val ⟨.fin v2⟩ (.fin M) (.fin m) k = .fin n2 ∧ n1 ≤ n2 := by
  have hd : M - m ≠ 0 := by linarith
  have hpos : 0 < M - m := by linarith
  have hk2 : (0 : ℚ) ≤ (k : ℚ) := by exact_mod_cast hk
  refine ⟨⌊toFloat32 v1 / (M - m) * (k : ℚ)⌋, ⌊toFloat32 v2 / (M - m) * (k : ℚ)⌋, ?_, ?_, ?_⟩
  · rw [cluster_val_fin, if_neg hd]
  · rw [cluster_val_fin, if_neg hd]
  · apply Int.floor_mono
    apply mul_le_mul_of_nonneg_right _ hk2
    exact div_le_div_of_nonneg_right (toFloat32_mono v1 v2 hv) hpos.le

/-- Counterexample to C11: the hue range of the cloud of one red point is `(0, 0)`, and
on that range the formula gives no integer bucket for any value, so two values are
not mapped to ordered buckets. -/
theorem bucket_order_fails_on_zero_width :
    (finalState defaultParams alwaysContinue redCloud).max .H = .fin 0 ∧
    (finalState defaultParams alwaysContinue redCloud).min .H = .fin 0 ∧
    cluster_val ⟨.fin 0⟩ (.fin 0) (.fin 0) (defaultParams.clusters .H) = .nan ∧
    ¬ (∀ v1 v2 : ℚ, v1 ≤ v2 →
        ∃ n1 n2 : ℤ,
          cluster_val ⟨.fin v1⟩ (.fin 0) (.fin 0) (defaultParams.clusters .H) = .fin n1 ∧
          cluster_val ⟨.fin v2⟩ (.fin 0) (.fin 0) (defaultParams.clusters .H) = .fin n2 ∧
          n1 ≤ n2) := by
  refine ⟨finalRange_redCloud_H.1, finalRange_redCloud_H.2, cluster_val_same _ _ _, ?_⟩
  intro hall
  obtain ⟨n1, _, e, _, _⟩ := hall 0 0 (le_refl _)
  rw [cluster_val_same] at e
  cases e

/-- C11, amended: for a fixed channel range with `min < max` and a cluster count that
is not negative, the formula of lines 165, 182, 199 maps every value to an integer
bucket and is monotonic: `value1 ≤ value2` gives `Bucket value1 ≤ Bucket value2`. -/
theorem bucket_monotonic (max min : ℚ) (clusters : Int) (hlt : min < max)
    (hk : 0 ≤ clusters) (value1 value2 : ℚ) (hv : value1 ≤ value2) :
    ∃ n1 n2 : ℤ, cluster_val ⟨.fin value1⟩ (.fin max) (.fin min) clusters = .fin n1 ∧
      cluster_val ⟨.fin value2⟩ (.fin max) (.fin min) clusters = .fin n2 ∧ n1 ≤ n2 :=
  cluster_val_mono max min clusters hlt hk value1 value2 hv

/-- Witness of C11, amended: the range `(0, 120)` with four clusters and the values
`60` and `120`. -/
theorem bucket_monotonic_witness :
    ∃ n1 n2 : ℤ, cluster_val ⟨.fin 60⟩ (.fin 120) (.fin 0) 4 = .fin n1 ∧
      cluster_val ⟨.fin 120⟩ (.fin 120) (.fin 0) 4 = .fin n2 ∧ n1 ≤ n2 :=
  bucket_monotonic 120 0 4 (by norm_num) (by norm_num) 60 120 (by norm_num)

/-- C12: for every cloud and every parameters, a run that is not cancelled leaves,
for each of the three channels, a feature layer and a segmentation layer (six arrays)
of exactly as many entries as the cloud has points, and entry `i` of each is derived
from point `i` of the cloud: its sample converted to `StoredReal`, and the label of
that buffered value. -/
theorem six_arrays_point_aligned (p : Params) (Update : Real → Bool) (cloud : Cloud)
    (h : (Run p Update cloud).thrown = false) (c : Channel) :
    ∃ feat seg : List StoredReal,
      layerVals (Run p Update cloud).cloud (featName c) = some feat ∧
      layerVals (Run p Update cloud).cloud (segName c) = some seg ∧
      feat.length = cloud.points.length ∧ seg.length = cloud.points.length ∧
      ∀ (i : Nat) (hi : i < cloud.points.length),
        feat[i]? = some (StoredReal.ofReal
          ((sampleAt p cloud (cloud.points.get ⟨i, hi⟩).xyz).get c)) ∧
        seg[i]? = some (StoredReal.ofReal (cluster_val
          (StoredReal.ofReal ((sampleAt p cloud (cloud.points.get ⟨i, hi⟩).xyz).get c))
          ((finalState p Update cloud).max c) ((finalState p Update cloud).min c)
          (p.clusters c))) :=
  Run_arrays p Update cloud h c

/-- Witness of C12: the value channel of the red and green cloud. -/
theorem six_arrays_point_aligned_witness :
    ∃ feat seg : List StoredReal,
      layerVals (Run defaultParams alwaysContinue redGreenCloud).cloud (featName .V) =
        some feat ∧
      layerVals (Run defaultParams alwaysContinue redGreenCloud).cloud (segName .V) =
        some seg ∧
      feat.length = redGreenCloud.points.length ∧
      seg.length = redGreenCloud.points.length ∧
      ∀ (i : Nat) (hi : i < redGreenCloud.points.length),
        feat[i]? = some (StoredReal.ofReal ((sampleAt defaultParams redGreenCloud
          (redGreenCloud.points.get ⟨i, hi⟩).xyz).get .V)) ∧
        seg[i]? = some (StoredReal.ofReal (cluster_val
          (StoredReal.ofReal ((sampleAt defaultParams redGreenCloud
            (redGreenCloud.points.get ⟨i, hi⟩).xyz).get .V))
          ((finalState defaultParams alwaysContinue redGreenCloud).max .V)
          ((finalState defaultParams alwaysContinue redGreenCloud).min .V)
          (defaultParams.clusters .V))) :=
  six_arrays_point_aligned defaultParams alwaysContinue redGreenCloud redGreen_small .V

theorem averageColor_singleton (pt : Point) :
    averageColor [pt] =
      ⟨.fin (pt.color.x / 255), .fin (pt.color.y / 255), .fin (pt.color.z / 255)⟩ := by
  simp [averageColor, sumColors, sumStep]

theorem sampleAt_sole_red (p : Params) (cloud : Cloud) (a : Point)
    (hc : a.color = ⟨255, 0, 0⟩) (hn : cloud.FindPoints ⟨p.sphere_radius, a.xyz⟩ = [a]) :
    sampleAt p cloud a.xyz = ⟨.fin 0, .fin 100, .fin 100⟩ := by
  simp only [sampleAt, hn, averageColor_singleton, hc]
  norm_num [toHSV, hueOf, saturationOf, valueOf, max3, min3]

theorem sampleAt_sole_green (p : Params) (cloud : Cloud) (a : Point)
    (hc : a.color = ⟨0, 255, 0⟩) (hn : cloud.FindPoints ⟨p.sphere_radius, a.xyz⟩ = [a]) :
    sampleAt p cloud a.xyz = ⟨.fin 120, .fin 100, .fin 100⟩ := by
  simp only [sampleAt, hn, averageColor_singleton, hc]
  norm_num [toHSV, hueOf, saturationOf, valueOf, max3, min3]

theorem sampleAt_sole_blue (p : Params) (cloud : Cloud) (a : Point)
    (hc : a.color = ⟨0, 0, 255⟩) (hn : cloud.FindPoints ⟨p.sphere_radius, a.xyz⟩ = [a]) :
    sampleAt p cloud a.xyz = ⟨.fin 240, .fin 100, .fin 100⟩ := by
  simp only [sampleAt, hn, averageColor_singleton, hc]
  norm_num [toHSV, hueOf, saturationOf, valueOf, max3, min3]

/-- C14: for a cloud of three points with colours `(255, 0, 0)`, `(0, 255, 0)` and
`(0, 0, 255)`, each its own sole neighbour, the run is not cancelled and writes
`HUE = [0, 120, 240]`, `SATURATION = [100, 100, 100]`, `VALUE = [100, 100, 100]`,
whatever the cluster counts, `4/4/4` included. -/
theorem three_primaries_cloud (p : Params) (Update : Real → Bool) (cloud : Cloud)
    (a b c : Point) (hpts : cloud.points = [a, b, c])
    (ha : a.color = ⟨255, 0, 0⟩) (hb : b.color = ⟨0, 255, 0⟩) (hc : c.color = ⟨0, 0, 255⟩)
    (na : cloud.FindPoints ⟨p.sphere_radius, a.xyz⟩ = [a])
    (nb : cloud.FindPoints ⟨p.sphere_radius, b.xyz⟩ = [b])
    (nc : cloud.FindPoints ⟨p.sphere_radius, c.xyz⟩ = [c]) :
    (Run p Update cloud).thrown = false ∧
    layerVals (Run p Update cloud).cloud "HUE" =
      some [⟨.fin 0⟩, ⟨.fin 120⟩, ⟨.fin 240⟩] ∧
    layerVals (Run p Update cloud).cloud "SATURATION" =
      some [⟨.fin 100⟩, ⟨.fin 100⟩, ⟨.fin 100⟩] ∧
    layerVals (Run p Update cloud).cloud "VALUE" =
      some [⟨.fin 100⟩, ⟨.fin 100⟩, ⟨.fin 100⟩] := by
  have hrun : (Run p Update cloud).thrown = false := by
    apply Run_small
    rw [hpts]
    simp [progress_step]
  have hs : ∀ ch : Channel, samples p cloud ch =
      [(HSV.mk (.fin 0) (.fin 100) (.fin 100)).get ch,
       (HSV.mk (.fin 120) (.fin 100) (.fin 100)).get ch,
       (HSV.mk (.fin 240) (.fin 100) (.fin 100)).get ch] := by
    intro ch
    unfold samples
    rw [hpts]
    simp only [List.map_cons, List.map_nil, sampleAt_sole_red p cloud a ha na,
      sampleAt_sole_green p cloud b hb nb, sampleAt_sole_blue p cloud c hc nc]
  have hl : ∀ ch : Channel, layerVals (Run p Update cloud).cloud (featName ch) =
      some ((samples p cloud ch).map StoredReal.ofReal) := by
    intro ch
    rw [(Run_layers p Update cloud hrun ch).2, (finalState_spec p Update cloud hrun ch).1,
      buffered]
  refine ⟨hrun, ?_, ?_, ?_⟩
  · have := hl .H
    rw [hs] at this
    simpa only [HSV.get, List.map_cons, List.map_nil, ofReal_fin, toFloat32_zero,
      toFloat32_120, toFloat32_240] using this
  · have := hl .S
    rw [hs] at this
    simpa only [HSV.get, List.map_cons, List.map_nil, ofReal_fin, toFloat32_100] using this
  · have := hl .V
    rw [hs] at this
    simpa only [HSV.get, List.map_cons, List.map_nil, ofReal_fin, toFloat32_100] using this

/-- Witness of C14: the concrete cloud of three points with the default parameters,
four clusters per channel. -/
theorem three_primaries_cloud_witness :
    (Run defaultParams alwaysContinue rgbCloud).thrown = false ∧
    layerVals (Run defaultParams alwaysContinue rgbCloud).cloud "HUE" =
      some [⟨.fin 0⟩, ⟨.fin 120⟩, ⟨.fin 240⟩] ∧
    layerVals (Run defaultParams alwaysContinue rgbCloud).cloud "SATURATION" =
      some [⟨.fin 100⟩, ⟨.fin 100⟩, ⟨.fin 100⟩] ∧
    layerVals (Run defaultParams alwaysContinue rgbCloud).cloud "VALUE" =
      some [⟨.fin 100⟩, ⟨.fin 100⟩, ⟨.fin 100⟩] := by
  have h1 : ¬ greenPoint.xyz = redPoint.xyz := by simp [greenPoint, redPoint]
  have h2 : ¬ bluePoint.xyz = redPoint.xyz := by simp [bluePoint, redPoint]
  have h3 : ¬ bluePoint.xyz = greenPoint.xyz := by simp [bluePoint, greenPoint]
  exact three_primaries_cloud defaultParams alwaysContinue rgbCloud redPoint greenPoint
    bluePoint rfl rfl rfl rfl
    (by simp only [rgbCloud, if_true])
    (by simp only [rgbCloud, h1, if_false, if_true])
    (by simp only [rgbCloud, h2, h3, if_false])

/-! ## The range tracker -/

theorem samplesInRange_mem (p : Params) (cloud : Cloud) (hr : cloud.samplesInRange p)
    (c : Channel) (x : Real) (hx : x ∈ samples p cloud c) :
    ∃ a : ℚ, x = .fin a ∧ 0 ≤ a ∧ a ≤ 360 := by
  obtain ⟨pt, hpt, rfl⟩ := List.mem_map.mp hx
  obtain ⟨h, s, v, e, ⟨h0, h1⟩, ⟨s0, s1⟩, ⟨v0, v1⟩⟩ := hr pt hpt
  rw [e]
  cases c
  · exact ⟨h, rfl, h0, h1.le⟩
  · exact ⟨s, rfl, s0, by linarith⟩
  · exact ⟨v, rfl, v0, by linarith⟩

theorem samples_ne_nil (p : Params) (cloud : Cloud) (hne : cloud.points ≠ []) (c : Channel) :
    ∃ x, x ∈ samples p cloud c := by
  obtain ⟨pt, hpt⟩ := List.exists_mem_of_ne_nil _ hne
  exact ⟨_, List.mem_map.mpr ⟨pt, hpt, rfl⟩⟩

theorem tracked_range (p : Params) (Update : Real → Bool) (cloud : Cloud)
    (hne : cloud.points ≠ []) (hr : cloud.samplesInRange p)
    (h : (Run p Update cloud).thrown = false) (c : Channel) :
    ∃ M m : ℚ, (finalState p Update cloud).max c = .fin M ∧
      (finalState p Update cloud).min c = .fin m ∧
      (finalState p Update cloud).values c = (samples p cloud c).map StoredReal.ofReal ∧
      (∀ x ∈ samples p cloud c, ∃ a : ℚ, x = .fin a ∧ m ≤ a ∧ a ≤ M) ∧
      Real.fin M ∈ samples p cloud c ∧
      Real.fin m ∈ samples p cloud c ∧
      M ≠ -1 ∧ m ≠ 500 ∧
      (∀ b ∈ (finalState p Update cloud).values c,
        ∃ a : ℚ, b = ⟨.fin a⟩ ∧ toFloat32 m ≤ a ∧ a ≤ toFloat32 M) ∧
      StoredReal.mk (.fin (toFloat32 M)) ∈ (finalState p Update cloud).values c ∧
      StoredReal.mk (.fin (toFloat32 m)) ∈ (finalState p Update cloud).values c := by
  obtain ⟨e1, e2, e3⟩ := finalState_spec p Update cloud h c
  obtain ⟨M, eM, _, hMb, hMa⟩ := trackMax_fin (samples p cloud c) (-1)
  obtain ⟨m, em, _, hmb, hma⟩ := trackMin_fin (samples p cloud c) 500
  obtain ⟨x, hx⟩ := samples_ne_nil p cloud hne c
  obtain ⟨a, rfl, a0, a1⟩ := samplesInRange_mem p cloud hr c x hx
  have hM1 : M ≠ -1 := by
    have := hMb a hx
    intro e; rw [e] at this; linarith
  have hm1 : m ≠ 500 := by
    have := hmb a hx
    intro e; rw [e] at this; linarith
  have hMs : Real.fin M ∈ samples p cloud c := by
    rcases hMa with e | e
    · exact absurd e hM1
    · exact e
  have hms : Real.fin m ∈ samples p cloud c := by
    rcases hma with e | e
    · exact absurd e hm1
    · exact e
  refine ⟨M, m, by rw [e2, eM], by rw [e3, em], by rw [e1, buffered], ?_, hMs, hms, hM1, hm1,
    ?_, ?_, ?_⟩
  · intro y hy
    obtain ⟨b, rfl, _, _⟩ := samplesInRange_mem p cloud hr c y hy
    exact ⟨b, rfl, hmb b hy, hMb b hy⟩
  · intro b hb
    rw [e1, buffered] at hb
    obtain ⟨y, hy, rfl⟩ := List.mem_map.mp hb
    obtain ⟨q, rfl, _, _⟩ := samplesInRange_mem p cloud hr c y hy
    exact ⟨toFloat32 q, ofReal_fin q, toFloat32_mono _ _ (hmb q hy),
      toFloat32_mono _ _ (hMb q hy)⟩
  · rw [e1, buffered]
    exact List.mem_map.mpr ⟨_, hMs, ofReal_fin M⟩
  · rw [e1, buffered]
    exact List.mem_map.mpr ⟨_, hms, ofReal_fin m⟩

theorem pointStep_range (p : Params) (cloud : Cloud) (s : State) (xyz : XYZ) (c : Channel)
    (M0 m0 : ℚ) (hM : s.max c = .fin M0) (hm : s.min c = .fin m0) :
    ∃ M1 m1 : ℚ, (pointStep p cloud s xyz).max c = .fin M1 ∧
      (pointStep p cloud s xyz).min c = .fin m1 ∧ M0 ≤ M1 ∧ m1 ≤ m0 := by
  obtain ⟨M1, e1, h1, _, _⟩ := updMax_fin ((sampleAt p cloud xyz).get c) M0
  obtain ⟨m1, e2, h2, _, _⟩ := updMin_fin ((sampleAt p cloud xyz).get c) m0
  exact ⟨M1, m1, by rw [pointStep_max, hM, e1], by rw [pointStep_min, hm, e2], h1, h2⟩

theorem samplesInRange_redGreen : redGreenCloud.samplesInRange defaultParams := by
  intro pt hpt
  have hpt2 : pt = redPoint ∨ pt = greenPoint := by simpa [redGreenCloud] using hpt
  rcases hpt2 with rfl | rfl
  · exact ⟨0, 100, 100, sampleAt_redGreen_red, by norm_num, by norm_num, by norm_num⟩
  · exact ⟨120, 100, 100, sampleAt_redGreen_green, by norm_num, by norm_num, by norm_num⟩

theorem averageColor_dim : averageColor [dimPoint] = ⟨.fin (1 / 255), .fin 0, .fin 0⟩ := by
  norm_num [averageColor, sumColors, sumStep, dimPoint]

theorem averageColor_dimmer :
    averageColor [dimmerPoint] = ⟨.fin (2 / 255), .fin 0, .fin 0⟩ := by
  norm_num [averageColor, sumColors, sumStep, dimmerPoint]

theorem toHSV_dim :
    toHSV ⟨.fin (1 / 255), .fin 0, .fin 0⟩ = ⟨.fin 0, .fin 100, .fin (20 / 51)⟩ := by
  norm_num [toHSV, hueOf, saturationOf, valueOf, max3, min3]

theorem toHSV_dimmer :
    toHSV ⟨.fin (2 / 255), .fin 0, .fin 0⟩ = ⟨.fin 0, .fin 100, .fin (40 / 51)⟩ := by
  norm_num [toHSV, hueOf, saturationOf, valueOf, max3, min3]

theorem sampleAt_dim :
    sampleAt defaultParams dimCloud dimPoint.xyz = ⟨.fin 0, .fin 100, .fin (20 / 51)⟩ := by
  simp only [sampleAt, dimCloud, if_true, averageColor_dim, toHSV_dim]

theorem sampleAt_dimmer :
    sampleAt defaultParams dimCloud dimmerPoint.xyz =
      ⟨.fin 0, .fin 100, .fin (40 / 51)⟩ := by
  have h : ¬ dimmerPoint.xyz = dimPoint.xyz := by simp [dimmerPoint, dimPoint]
  simp only [sampleAt, dimCloud, h, if_false, averageColor_dimmer, toHSV_dimmer]

theorem samples_dim (c : Channel) :
    samples defaultParams dimCloud c =
      [(HSV.mk (.fin 0) (.fin 100) (.fin (20 / 51))).get c,
       (HSV.mk (.fin 0) (.fin 100) (.fin (40 / 51))).get c] := by
  show [(sampleAt defaultParams dimCloud dimPoint.xyz).get c,
    (sampleAt defaultParams dimCloud dimmerPoint.xyz).get c] = _
  rw [sampleAt_dim, sampleAt_dimmer]

theorem dim_small : (Run defaultParams alwaysContinue dimCloud).thrown = false :=
  Run_small defaultParams alwaysContinue dimCloud (by decide)

theorem samplesInRange_dim : dimCloud.samplesInRange defaultParams := by
  intro pt hpt
  have hpt2 : pt = dimPoint ∨ pt = dimmerPoint := by simpa [dimCloud] using hpt
  rcases hpt2 with rfl | rfl
  · exact ⟨0, 100, 20 / 51, sampleAt_dim, by norm_num, by norm_num, by norm_num⟩
  · exact ⟨0, 100, 40 / 51, sampleAt_dimmer, by norm_num, by norm_num, by norm_num⟩

/-- Counterexample to C17: in the cloud of the colours `(1, 0, 0)` and `(2, 0, 0)` the
samples are in range, the tracked maximum of the value channel is `40 / 51`, and the
buffer of the channel holds that sample rounded to single precision,
`13158601 / 16777216`, which is above the tracked maximum; the tracked maximum is not
a buffered value. -/
theorem buffered_value_above_tracked_max :
    dimCloud.points ≠ [] ∧ dimCloud.samplesInRange defaultParams ∧
    (Run defaultParams alwaysContinue dimCloud).thrown = false ∧
    (finalState defaultParams alwaysContinue dimCloud).max .V = .fin (40 / 51) ∧
    (finalState defaultParams alwaysContinue dimCloud).values .V =
      [⟨.fin (13158601 / 33554432)⟩, ⟨.fin (13158601 / 16777216)⟩] ∧
    (40 / 51 : ℚ) < 13158601 / 16777216 ∧
    StoredReal.mk (.fin (40 / 51)) ∉ (finalState defaultParams alwaysContinue dimCloud).values .V := by
  obtain ⟨e1, e2, _⟩ := finalState_spec defaultParams alwaysContinue dimCloud dim_small .V
  have hv : (finalState defaultParams alwaysContinue dimCloud).values .V =
      [⟨.fin (13158601 / 33554432)⟩, ⟨.fin (13158601 / 16777216)⟩] := by
    rw [e1, buffered, samples_dim]
    simp only [HSV.get, List.map_cons, List.map_nil, ofReal_fin, toFloat32_20_51,
      toFloat32_40_51]
  refine ⟨by simp [dimCloud], samplesInRange_dim, dim_small, ?_, hv, by norm_num, ?_⟩
  · rw [e2, samples_dim]
    norm_num [HSV.get, trackMax, updMax]
  · rw [hv]
    intro hmem
    simp only [List.mem_cons, List.mem_singleton, StoredReal.mk.injEq, Real.fin.injEq,
      List.not_mem_nil, or_false] at hmem
    rcases hmem with e | e <;> norm_num at e

/-- C17, amended: for a cloud that is not empty and whose samples are finite with hue
in `[0, 360)` and saturation and value in `[0, 100]`, after a first loop that was not
cancelled the tracked maximum and minimum of a channel are finite, bound every sample
of the channel, are themselves samples, and are not the sentinels `-1` and `500`.
The buffer of the channel holds the samples converted to single precision: every
buffered value lies between the converted minimum and the converted maximum, which
are both buffered.  One step of the loop from any state with a finite range leaves a
finite range whose maximum has not decreased and whose minimum has not increased. -/
theorem range_tracker_final (p : Params) (Update : Real → Bool) (cloud : Cloud)
    (hne : cloud.points ≠ []) (hr : cloud.samplesInRange p)
    (h : (Run p Update cloud).thrown = false) (c : Channel) :
    (∃ M m : ℚ, (finalState p Update cloud).max c = .fin M ∧
      (finalState p Update cloud).min c = .fin m ∧
      (finalState p Update cloud).values c = (samples p cloud c).map StoredReal.ofReal ∧
      (∀ x ∈ samples p cloud c, ∃ a : ℚ, x = .fin a ∧ m ≤ a ∧ a ≤ M) ∧
      Real.fin M ∈ samples p cloud c ∧
      Real.fin m ∈ samples p cloud c ∧
      M ≠ -1 ∧ m ≠ 500 ∧
      (∀ b ∈ (finalState p Update cloud).values c,
        ∃ a : ℚ, b = ⟨.fin a⟩ ∧ toFloat32 m ≤ a ∧ a ≤ toFloat32 M) ∧
      StoredReal.mk (.fin (toFloat32 M)) ∈ (finalState p Update cloud).values c ∧
      StoredReal.mk (.fin (toFloat32 m)) ∈ (finalState p Update cloud).values c) ∧
    (State.init.max c = .fin (-1) ∧ State.init.min c = .fin 500) ∧
    (∀ (s : State) (xyz : XYZ) (M0 m0 : ℚ), s.max c = .fin M0 → s.min c = .fin m0 →
      ∃ M1 m1 : ℚ, (pointStep p cloud s xyz).max c = .fin M1 ∧
        (pointStep p cloud s xyz).min c = .fin m1 ∧ M0 ≤ M1 ∧ m1 ≤ m0) :=
  ⟨tracked_range p Update cloud hne hr h c, by cases c <;> exact ⟨rfl, rfl⟩,
   fun s xyz M0 m0 hM hm => pointStep_range p cloud s xyz c M0 m0 hM hm⟩

/-- Witness of C17, amended: the value channel of the cloud of the colours `(1, 0, 0)`
and `(2, 0, 0)`. -/
theorem range_tracker_final_witness :
    ∃ M m : ℚ, (finalState defaultParams alwaysContinue dimCloud).max .V = .fin M ∧
      (finalState defaultParams alwaysContinue dimCloud).min .V = .fin m ∧
      (finalState defaultParams alwaysContinue dimCloud).values .V =
        (samples defaultParams dimCloud .V).map StoredReal.ofReal ∧
      (∀ x ∈ samples defaultParams dimCloud .V, ∃ a : ℚ, x = .fin a ∧ m ≤ a ∧ a ≤ M) ∧
      Real.fin M ∈ samples defaultParams dimCloud .V ∧
      Real.fin m ∈ samples defaultParams dimCloud .V ∧
      M ≠ -1 ∧ m ≠ 500 ∧
      (∀ b ∈ (finalState defaultParams alwaysContinue dimCloud).values .V,
        ∃ a : ℚ, b = ⟨.fin a⟩ ∧ toFloat32 m ≤ a ∧ a ≤ toFloat32 M) ∧
      StoredReal.mk (.fin (toFloat32 M)) ∈
        (finalState defaultParams alwaysContinue dimCloud).values .V ∧
      StoredReal.mk (.fin (toFloat32 m)) ∈
        (finalState defaultParams alwaysContinue dimCloud).values .V :=
  (range_tracker_final defaultParams alwaysContinue dimCloud (by simp [dimCloud])
    samplesInRange_dim dim_small .V).1

/-! ## Progress and cancellation -/

theorem pass1_cons (p : Params) (Update : Real → Bool) (cloud : Cloud) (pt : Point)
    (rest : List Point) (s : State) :
    pass1 p Update cloud (pt :: rest) s =
      if (s.progress + 1) % progress_step = 0 then
        if Update (fractionAt cloud.points.length (s.progress + 1)) then
          pass1 p Update cloud rest
            ((pointStep p cloud s pt.xyz).report
              (fractionAt cloud.points.length (s.progress + 1)))
        else
          ((pointStep p cloud s pt.xyz).report
            (fractionAt cloud.points.length (s.progress + 1)), true)
      else pass1 p Update cloud rest (pointStep p cloud s pt.xyz) := rfl

theorem pass1_reports (p : Params) (Update : Real → Bool) (cloud : Cloud) :
    ∀ (pts : List Point) (s : State),
      (pass1 p Update cloud pts s).1.reports =
        s.reports ++ (askInOrder Update cloud.points.length
          ((List.range' (s.progress + 1) pts.length).filter
            (fun g => g % progress_step = 0))).1 ∧
      (pass1 p Update cloud pts s).2 =
        (askInOrder Update cloud.points.length
          ((List.range' (s.progress + 1) pts.length).filter
            (fun g => g % progress_step = 0))).2 := by
  intro pts
  induction pts with
  | nil => intro s; simp [pass1, askInOrder]
  | cons pt rest ih =>
    intro s
    rw [pass1_cons]
    simp only [List.length_cons, List.range'_succ, List.filter_cons]
    by_cases hm : (s.progress + 1) % progress_step = 0
    · simp only [hm, if_true, decide_True, askInOrder]
      by_cases hu : Update (fractionAt cloud.points.length (s.progress + 1)) = true
      · simp only [hu, if_true]
        obtain ⟨e1, e2⟩ := ih ((pointStep p cloud s pt.xyz).report
          (fractionAt cloud.points.length (s.progress + 1)))
        refine ⟨?_, e2⟩
        rw [e1]
        show (s.reports ++ [_]) ++ _ = _
        simp
        rfl
      · simp only [hu, if_false, Bool.false_eq_true]
        exact ⟨rfl, trivial⟩
    · simp only [hm, if_false, decide_False]
      exact ih (pointStep p cloud s pt.xyz)

theorem askInOrder_stopped (Update : Real → Bool) (n : Nat) (gs : List Nat) :
    (askInOrder Update n gs).2 = true ↔ ∃ g ∈ gs, Update (fractionAt n g) = false := by
  induction gs with
  | nil => simp [askInOrder]
  | cons g gs ih =>
    by_cases hu : Update (fractionAt n g) = true
    · simp only [askInOrder, hu, if_true, ih, List.mem_cons]
      constructor
      · rintro ⟨x, hx, e⟩
        exact ⟨x, Or.inr hx, e⟩
      · rintro ⟨x, hx | hx, e⟩
        · subst hx; rw [hu] at e; cases e
        · exact ⟨x, hx, e⟩
    · have hf : Update (fractionAt n g) = false := by simpa using hu
      simp only [askInOrder, hu, if_false, Bool.false_eq_true, true_iff]
      exact ⟨g, List.mem_cons_self _ _, hf⟩

theorem askInOrder_take (Update : Real → Bool) (n : Nat) (gs : List Nat) :
    ∃ k, k ≤ gs.length ∧
      (askInOrder Update n gs).1 = (gs.take k).map (fractionAt n) ∧
      ((askInOrder Update n gs).2 = false → k = gs.length) ∧
      ((askInOrder Update n gs).2 = true →
        0 < k ∧ ∃ g, gs[k - 1]? = some g ∧ Update (fractionAt n g) = false) := by
  induction gs with
  | nil => exact ⟨0, le_refl _, rfl, fun _ => rfl, fun h => by simp [askInOrder] at h⟩
  | cons g gs ih =>
    by_cases hu : Update (fractionAt n g) = true
    · obtain ⟨k, hk, e, h1, h2⟩ := ih
      refine ⟨k + 1, by simpa using hk, ?_, ?_, ?_⟩
      · simp only [askInOrder, hu, if_true, e, List.take_succ_cons, List.map_cons]
      · intro h
        simp only [askInOrder, hu, if_true] at h
        simp [h1 h]
      · intro h
        simp only [askInOrder, hu, if_true] at h
        obtain ⟨kpos, x, hx, ex⟩ := h2 h
        refine ⟨Nat.succ_pos _, x, ?_, ex⟩
        have : k + 1 - 1 = (k - 1) + 1 := by omega
        rw [this, List.getElem?_cons_succ]
        exact hx
    · have hf : Update (fractionAt n g) = false := by simpa using hu
      refine ⟨1, by simp, ?_, ?_, ?_⟩
      · simp [askInOrder, hu]
      · intro h
        simp [askInOrder, hu] at h
      · intro _
        exact ⟨Nat.one_pos, g, by simp, hf⟩

theorem mem_consulted (n g : Nat) :
    g ∈ consulted n ↔ 0 < g ∧ g ≤ n ∧ g % progress_step = 0 := by
  simp only [consulted, List.mem_filter, List.mem_range'_1, decide_eq_true_eq]
  constructor
  · rintro ⟨⟨h1, h2⟩, h3⟩
    exact ⟨by omega, by omega, h3⟩
  · rintro ⟨h1, h2, h3⟩
    exact ⟨⟨by omega, by omega⟩, h3⟩

theorem fractionAt_range (n g : Nat) (h0 : 0 < g) (h1 : g ≤ n) :
    ∃ q : ℚ, fractionAt n g = .fin q ∧ q = (g : ℚ) / (n : ℚ) ∧ 0 < q ∧ q ≤ 1 := by
  have hn : (0 : ℚ) < (n : ℚ) := by
    have : 0 < n := lt_of_lt_of_le h0 h1
    exact_mod_cast this
  have hg : (0 : ℚ) < (g : ℚ) := by exact_mod_cast h0
  have hgn : (g : ℚ) ≤ (n : ℚ) := by exact_mod_cast h1
  refine ⟨(g : ℚ) / (n : ℚ), ?_, rfl, div_pos hg hn, ?_⟩
  · simp [fractionAt, ne_of_gt hn]
  · rw [div_le_one hn]; exact hgn

theorem Run_reports (p : Params) (Update : Real → Bool) (cloud : Cloud) :
    (Run p Update cloud).reports =
      (askInOrder Update cloud.points.length (consulted cloud.points.length)).1 ∧
    (Run p Update cloud).thrown =
      (askInOrder Update cloud.points.length (consulted cloud.points.length)).2 := by
  obtain ⟨e1, e2⟩ := pass1_reports p Update cloud cloud.points State.init
  have hr : (Run p Update cloud).reports =
      (pass1 p Update cloud cloud.points State.init).1.reports := by
    unfold Run
    simp only
    split_ifs <;> rfl
  refine ⟨?_, ?_⟩
  · rw [hr, e1]
    simp [State.init, consulted]
  · rw [Run_thrown, e2]
    simp [State.init, consulted]

theorem Run_thrown_cloud (p : Params) (Update : Real → Bool) (cloud : Cloud)
    (h : (Run p Update cloud).thrown = true) : (Run p Update cloud).cloud = cloud := by
  rw [Run_thrown] at h
  unfold Run
  simp only [h, if_true]

/-- C13: in the first loop over a cloud of `n` points (fewer than `2 ^ 31`, so that
the counter does not overflow) the progress channel is asked at the positive multiples
of 10000 up to `n`, in order and until it first answers `false`, each time with the
fraction `processed / n`, which is in `(0, 1]`; the run is aborted exactly when one of
these answers is `false`, the last report is then the one answered `false`, and the
cloud and all its layers are left as they were. -/
theorem progress_and_cancellation (p : Params) (Update : Real → Bool) (cloud : Cloud)
    (_hn : cloud.points.length < 2 ^ 31) :
    (∀ g, g ∈ consulted cloud.points.length ↔
      0 < g ∧ g ≤ cloud.points.length ∧ g % progress_step = 0) ∧
    (∀ g ∈ consulted cloud.points.length, ∃ q : ℚ,
      fractionAt cloud.points.length g = .fin q ∧
      q = (g : ℚ) / (cloud.points.length : ℚ) ∧ 0 < q ∧ q ≤ 1) ∧
    (Run p Update cloud).reports =
      (askInOrder Update cloud.points.length (consulted cloud.points.length)).1 ∧
    (∃ k, k ≤ (consulted cloud.points.length).length ∧
      (Run p Update cloud).reports =
        ((consulted cloud.points.length).take k).map (fractionAt cloud.points.length) ∧
      ((Run p Update cloud).thrown = false → k = (consulted cloud.points.length).length) ∧
      ((Run p Update cloud).thrown = true →
        0 < k ∧ ∃ g, (consulted cloud.points.length)[k - 1]? = some g ∧
          Update (fractionAt cloud.points.length g) = false)) ∧
    ((Run p Update cloud).thrown = true ↔
      ∃ g ∈ consulted cloud.points.length,
        Update (fractionAt cloud.points.length g) = false) ∧
    ((Run p Update cloud).thrown = true →
      (Run p Update cloud).cloud = cloud ∧
      ∀ name, layerVals (Run p Update cloud).cloud name = layerVals cloud name) := by
  obtain ⟨r1, r2⟩ := Run_reports p Update cloud
  refine ⟨mem_consulted _, ?_, r1, ?_, ?_, ?_⟩
  · intro g hg
    obtain ⟨h0, h1, _⟩ := (mem_consulted _ g).mp hg
    exact fractionAt_range _ g h0 h1
  · obtain ⟨k, hk, e, h1, h2⟩ :=
      askInOrder_take Update cloud.points.length (consulted cloud.points.length)
    exact ⟨k, hk, by rw [r1, e], by rw [r2]; exact h1, by rw [r2]; exact h2⟩
  · rw [r2]; exact askInOrder_stopped _ _ _
  · intro h
    have e := Run_thrown_cloud p Update cloud h
    exact ⟨e, fun name => by rw [e]⟩

/-- Witness of C13: a cloud of 10000 points and a channel that cancels: the run is
aborted at the only report and the cloud is left as it was. -/
theorem progress_and_cancellation_witness :
    (Run defaultParams alwaysCancel bigRedCloud).thrown = true ∧
    (Run defaultParams alwaysCancel bigRedCloud).cloud = bigRedCloud := by
  have hlen : bigRedCloud.points.length = 10000 := List.length_replicate _ _
  have h := progress_and_cancellation defaultParams alwaysCancel bigRedCloud
    (by rw [hlen]; norm_num)
  have ht : (Run defaultParams alwaysCancel bigRedCloud).thrown = true := by
    apply h.2.2.2.2.1.mpr
    refine ⟨10000, ?_, rfl⟩
    rw [hlen]
    exact (mem_consulted 10000 10000).mpr ⟨by norm_num, le_refl _, by norm_num [progress_step]⟩
  exact ⟨ht, (h.2.2.2.2.2 ht).1⟩

/-! ## Layer state: find or create -/

theorem savedLayers_nil (name : String) (vals zeros : List StoredReal) :
    savedLayers name vals zeros [] = [⟨name, vals⟩] := by
  simp [savedLayers, findLayers, setVals]

theorem savedLayers_hit (name : String) (vals zeros : List StoredReal) (l : Layer)
    (ls : List Layer) (hl : l.name = name) :
    savedLayers name vals zeros (l :: ls) = ⟨l.name, vals⟩ :: ls := by
  simp [savedLayers, findLayers, setVals, hl]

theorem savedLayers_count (name : String) (vals zeros : List StoredReal) (m : String) :
    ∀ ls : List Layer,
      countName (savedLayers name vals zeros ls) m =
        if m = name then (if countName ls m = 0 then 1 else countName ls m)
        else countName ls m := by
  intro ls
  induction ls with
  | nil =>
    rw [savedLayers_nil]
    by_cases h : name = m
    · simp [countName, h]
    · have h2 : ¬ m = name := fun e => h e.symm
      simp [countName, h, h2]
  | cons l ls ih =>
    by_cases hl : l.name = name
    · rw [savedLayers_hit name vals zeros l ls hl]
      by_cases h : l.name = m
      · have h2 : m = name := h.symm.trans hl
        simp [countName, List.countP_cons, h, h2]
      · have h2 : ¬ m = name := fun e => h (hl.trans e.symm)
        simp [countName, List.countP_cons, h, h2]
    · rw [savedLayers_cons name vals zeros l ls hl]
      unfold countName at ih ⊢
      rw [List.countP_cons, List.countP_cons, ih]
      by_cases h : l.name = m
      · have h2 : ¬ m = name := fun e => hl (h.trans e)
        simp [h, h2]
      · by_cases h2 : m = name
        · subst h2
          simp [hl]
        · simp [h, h2]

theorem savedLayers_others (name : String) (vals zeros : List StoredReal)
    (q : String → Bool) (hq : q name = false) :
    ∀ ls : List Layer,
      (savedLayers name vals zeros ls).filter (fun l => q l.name) =
        ls.filter (fun l => q l.name) := by
  intro ls
  induction ls with
  | nil => rw [savedLayers_nil]; simp [hq]
  | cons l ls ih =>
    by_cases hl : l.name = name
    · rw [savedLayers_hit name vals zeros l ls hl]
      simp [List.filter_cons, hl, hq]
    · rw [savedLayers_cons name vals zeros l ls hl, List.filter_cons, List.filter_cons, ih]

theorem savedLayers_same (name : String) (vals zeros : List StoredReal) :
    ∀ ls : List Layer,
      (ls.find? (fun l => l.name = name)).map (fun l => l.vals) = some vals →
      savedLayers name vals zeros ls = ls := by
  intro ls
  induction ls with
  | nil => intro h; simp at h
  | cons l ls ih =>
    intro h
    by_cases hl : l.name = name
    · rw [savedLayers_hit name vals zeros l ls hl]
      have hv : l.vals = vals := by simpa [List.find?_cons, hl] using h
      rw [← hv]
    · rw [savedLayers_cons name vals zeros l ls hl]
      have h2 : (ls.find? (fun l => l.name = name)).map (fun l => l.vals) = some vals := by
        simpa [List.find?_cons, hl] using h
      rw [ih h2]

theorem saveLayer_eq (cloud : Cloud) (name : String) (vals : List StoredReal) :
    saveLayer cloud name vals =
      { cloud with layers :=
          savedLayers name vals (List.replicate cloud.points.length ⟨.fin 0⟩) cloud.layers } := by
  unfold saveLayer savedLayers
  cases hf : findLayers name cloud.layers with
  | nil => simp [createLayer, setLayerVals]
  | cons i is => simp [setLayerVals]

theorem saveLayer_points (cloud : Cloud) (name : String) (vals : List StoredReal) :
    (saveLayer cloud name vals).points = cloud.points ∧
    (saveLayer cloud name vals).FindPoints = cloud.FindPoints := by
  rw [saveLayer_eq]
  exact ⟨rfl, rfl⟩

theorem saveLayer_same (cloud : Cloud) (name : String) (vals : List StoredReal)
    (h : layerVals cloud name = some vals) : saveLayer cloud name vals = cloud := by
  rw [saveLayer_eq, savedLayers_same name vals _ cloud.layers h]

theorem saveLayer_count (cloud : Cloud) (name : String) (vals : List StoredReal)
    (m : String) :
    countName (saveLayer cloud name vals).layers m =
      if m = name then (if countName cloud.layers m = 0 then 1 else countName cloud.layers m)
      else countName cloud.layers m := by
  rw [saveLayer_layers]
  exact savedLayers_count name vals _ m cloud.layers

theorem saveLayer_others (cloud : Cloud) (name : String) (vals : List StoredReal)
    (q : String → Bool) (hq : q name = false) :
    (saveLayer cloud name vals).layers.filter (fun l => q l.name) =
      cloud.layers.filter (fun l => q l.name) := by
  rw [saveLayer_layers]
  exact savedLayers_others name vals _ q hq cloud.layers

theorem Run_cloud_eq (p : Params) (Update : Real → Bool) (cloud : Cloud)
    (h : (Run p Update cloud).thrown = false) :
    (Run p Update cloud).cloud = writeLayers p (finalState p Update cloud) cloud := by
  rw [Run_thrown] at h
  unfold Run writeLayers finalState
  simp only [h, Bool.false_eq_true, if_false]

theorem writeLayers_points (p : Params) (s : State) (cloud : Cloud) :
    (writeLayers p s cloud).points = cloud.points ∧
    (writeLayers p s cloud).FindPoints = cloud.FindPoints := by
  unfold writeLayers
  simp only [saveLayer_points, and_self]

theorem writeLayers_vals (p : Params) (s : State) (cloud : Cloud) :
    layerVals (writeLayers p s cloud) "segmentation_H" =
      some (segmentation s.hue_values s.max_H s.min_H p.clusters_H) ∧
    layerVals (writeLayers p s cloud) "segmentation_S" =
      some (segmentation s.saturation_values s.max_S s.min_S p.clusters_S) ∧
    layerVals (writeLayers p s cloud) "segmentation_V" =
      some (segmentation s.value_values s.max_V s.min_V p.clusters_V) ∧
    layerVals (writeLayers p s cloud) "HUE" = some s.hue_values ∧
    layerVals (writeLayers p s cloud) "SATURATION" = some s.saturation_values ∧
    layerVals (writeLayers p s cloud) "VALUE" = some s.value_values := by
  unfold writeLayers
  simp only [layerVals_saveLayer]
  refine ⟨?_, ?_, ?_, ?_, ?_, ?_⟩ <;> simp

theorem writeLayers_fixed (p : Params) (s : State) (cloud : Cloud)
    (h1 : layerVals cloud "segmentation_H" =
      some (segmentation s.hue_values s.max_H s.min_H p.clusters_H))
    (h2 : layerVals cloud "segmentation_S" =
      some (segmentation s.saturation_values s.max_S s.min_S p.clusters_S))
    (h3 : layerVals cloud "segmentation_V" =
      some (segmentation s.value_values s.max_V s.min_V p.clusters_V))
    (h4 : layerVals cloud "HUE" = some s.hue_values)
    (h5 : layerVals cloud "SATURATION" = some s.saturation_values)
    (h6 : layerVals cloud "VALUE" = some s.value_values) :
    writeLayers p s cloud = cloud := by
  unfold writeLayers
  simp only
  rw [saveLayer_same cloud _ _ h1, saveLayer_same cloud _ _ h2, saveLayer_same cloud _ _ h3,
    saveLayer_same cloud _ _ h4, saveLayer_same cloud _ _ h5, saveLayer_same cloud _ _ h6]

theorem writeLayers_idem (p : Params) (s : State) (cloud : Cloud) :
    writeLayers p s (writeLayers p s cloud) = writeLayers p s cloud := by
  obtain ⟨h1, h2, h3, h4, h5, h6⟩ := writeLayers_vals p s cloud
  exact writeLayers_fixed p s _ h1 h2 h3 h4 h5 h6

theorem writeLayers_count (p : Params) (s : State) (cloud : Cloud) (m : String) :
    countName (writeLayers p s cloud).layers m =
      if m ∈ layerNames then
        (if countName cloud.layers m = 0 then 1 else countName cloud.layers m)
      else countName cloud.layers m := by
  unfold writeLayers
  simp only [saveLayer_count, layerNames, List.mem_cons, List.mem_singleton]
  by_cases e1 : m = "segmentation_H"
  · subst e1; simp
  by_cases e2 : m = "segmentation_S"
  · subst e2; simp
  by_cases e3 : m = "segmentation_V"
  · subst e3; simp
  by_cases e4 : m = "HUE"
  · subst e4; simp
  by_cases e5 : m = "SATURATION"
  · subst e5; simp
  by_cases e6 : m = "VALUE"
  · subst e6; simp
  simp [e1, e2, e3, e4, e5, e6]

theorem writeLayers_others (p : Params) (s : State) (cloud : Cloud) :
    (writeLayers p s cloud).layers.filter (fun l => decide (l.name ∉ layerNames)) =
      cloud.layers.filter (fun l => decide (l.name ∉ layerNames)) := by
  unfold writeLayers
  simp only
  rw [saveLayer_others _ _ _ (fun n => decide (n ∉ layerNames)) (by simp [layerNames]),
    saveLayer_others _ _ _ (fun n => decide (n ∉ layerNames)) (by simp [layerNames]),
    saveLayer_others _ _ _ (fun n => decide (n ∉ layerNames)) (by simp [layerNames]),
    saveLayer_others _ _ _ (fun n => decide (n ∉ layerNames)) (by simp [layerNames]),
    saveLayer_others _ _ _ (fun n => decide (n ∉ layerNames)) (by simp [layerNames]),
    saveLayer_others _ _ _ (fun n => decide (n ∉ layerNames)) (by simp [layerNames])]

theorem pointStep_congr (p : Params) (c1 c2 : Cloud) (hF : c1.FindPoints = c2.FindPoints)
    (s : State) (xyz : XYZ) : pointStep p c1 s xyz = pointStep p c2 s xyz := by
  unfold pointStep sampleAt
  rw [hF]

theorem pass1_congr (p : Params) (Update : Real → Bool) (c1 c2 : Cloud)
    (hp : c1.points = c2.points) (hF : c1.FindPoints = c2.FindPoints) :
    ∀ (pts : List Point) (s : State), pass1 p Update c1 pts s = pass1 p Update c2 pts s := by
  intro pts
  induction pts with
  | nil => intro s; rfl
  | cons pt rest ih =>
    intro s
    rw [pass1_cons, pass1_cons, pointStep_congr p c1 c2 hF, hp]
    split_ifs
    · exact ih _
    · rfl
    · exact ih _

theorem Run_twice (p : Params) (Update : Real → Bool) (cloud : Cloud) :
    (Run p Update (Run p Update cloud).cloud).cloud = (Run p Update cloud).cloud ∧
    (Run p Update (Run p Update cloud).cloud).thrown = (Run p Update cloud).thrown := by
  cases h : (Run p Update cloud).thrown with
  | true =>
    rw [Run_thrown_cloud p Update cloud h]
    exact ⟨Run_thrown_cloud p Update cloud h, h⟩
  | false =>
    have e := Run_cloud_eq p Update cloud h
    obtain ⟨hp, hF⟩ := writeLayers_points p (finalState p Update cloud) cloud
    have hpass : pass1 p Update (Run p Update cloud).cloud (Run p Update cloud).cloud.points
        State.init = pass1 p Update cloud cloud.points State.init := by
      rw [e, pass1_congr p Update _ cloud hp hF, hp]
    have h2 : (Run p Update (Run p Update cloud).cloud).thrown = false := by
      rw [Run_thrown, hpass, ← Run_thrown]; exact h
    have hfin : finalState p Update (Run p Update cloud).cloud = finalState p Update cloud := by
      unfold finalState; rw [hpass]
    refine ⟨?_, h2⟩
    rw [Run_cloud_eq p Update _ h2, hfin, e, writeLayers_idem]

/-- C15: with the layers of a cloud as explicit state, a run that is not cancelled
leaves, for each of the six names, one layer of that name if there was none and as many
as before otherwise, the first layer of the name holding the new values; layers of
other names are left as they were; and a second run on the result, with the same
parameters and the same answers of the progress channel, leaves the cloud and its
layers exactly as the first run left them. -/
theorem layers_found_or_created_once (p : Params) (Update : Real → Bool) (cloud : Cloud) :
    ((Run p Update cloud).thrown = false →
      (∀ name, countName (Run p Update cloud).cloud.layers name =
        if name ∈ layerNames then
          (if countName cloud.layers name = 0 then 1 else countName cloud.layers name)
        else countName cloud.layers name) ∧
      (∀ c : Channel,
        layerVals (Run p Update cloud).cloud (segName c) =
          some (((finalState p Update cloud).values c).map
            (fun it => StoredReal.ofReal (cluster_val it ((finalState p Update cloud).max c)
              ((finalState p Update cloud).min c) (p.clusters c)))) ∧
        layerVals (Run p Update cloud).cloud (featName c) =
          some ((finalState p Update cloud).values c)) ∧
      (Run p Update cloud).cloud.layers.filter (fun l => decide (l.name ∉ layerNames)) =
        cloud.layers.filter (fun l => decide (l.name ∉ layerNames))) ∧
    (Run p Update (Run p Update cloud).cloud).cloud = (Run p Update cloud).cloud ∧
    (Run p Update (Run p Update cloud).cloud).thrown = (Run p Update cloud).thrown := by
  refine ⟨?_, Run_twice p Update cloud⟩
  intro h
  rw [Run_cloud_eq p Update cloud h]
  refine ⟨fun name => writeLayers_count p _ cloud name, ?_, writeLayers_others p _ cloud⟩
  intro c
  rw [← Run_cloud_eq p Update cloud h]
  exact Run_layers p Update cloud h c

/-- Witness of C15: the cloud of one red point, which has no layer before the run: the
run leaves one layer named `HUE`, and a second run leaves the same cloud. -/
theorem layers_found_or_created_once_witness :
    countName (Run defaultParams alwaysContinue redCloud).cloud.layers "HUE" = 1 ∧
    (Run defaultParams alwaysContinue
        (Run defaultParams alwaysContinue redCloud).cloud).cloud =
      (Run defaultParams alwaysContinue redCloud).cloud := by
  have h := layers_found_or_created_once defaultParams alwaysContinue redCloud
  have hrun := Run_small defaultParams alwaysContinue redCloud (by decide)
  refine ⟨?_, h.2.1⟩
  rw [(h.1 hrun).1 "HUE"]
  simp [layerNames, countName, redCloud]

end RGB_to_HSV_conversion
